import Mathlib

/-!
Formal model of the biometric-voting backend core
(`backend/app` of the Blockchain-based-Voting repository).

Each Python function that a claim refers to is translated into an
executable Lean definition; stateful router code becomes explicit state
passing over a `SysState` record.  Machine floats are modelled by exact
rationals (`ℚ`) where the code does arithmetic on NumPy float arrays, and
by reals (`ℝ`) where a comparison against an irrational norm occurs.
-/

namespace Voting

/-! ## Quantization of embeddings (`app/services/crypto.py`)

`quantize_embedding` normalizes a float vector by its maximum absolute
value (plus a `1e-8` guard), scales by 127, casts to `int8`
(NumPy `astype`: truncation toward zero, wrap-around mod 256) and
serializes to bytes.  `dequantize_embedding` reads the bytes back as
signed `int8` values, reshapes to the requested shape and divides by
`127.0`.  Note that dequantization never multiplies by the stored scale:
it reconstructs the *normalized* vector, not the original one. -/

/-- Truncation toward zero on `ℚ`, the rounding NumPy's `astype(int)` uses. -/
def truncQ (x : ℚ) : ℤ := if 0 ≤ x then ⌊x⌋ else ⌈x⌉

/-- NumPy int8 cast semantics: wrap-around modulo 256 into `[-128, 127]`. -/
def toInt8 (z : ℤ) : ℤ := (z + 128) % 256 - 128

/-- Serialization of an int8 value to its (two's-complement) byte. -/
def int8ToByte (z : ℤ) : ℕ := (z % 256).toNat

/-- Reading a byte back as a signed int8 value (`np.frombuffer(..., dtype='int8')`). -/
def byteToInt8 (b : ℕ) : ℤ := if b < 128 then (b : ℤ) else (b : ℤ) - 256

/-- `np.abs(embedding_array).max()` over a vector. -/
def maxAbs (v : List ℚ) : ℚ := v.foldr (fun x m => max |x| m) 0

/-- The `1e-8` guard added to the normalization scale. -/
def epsQ : ℚ := 1 / 100000000

/-- Model of `quantize_embedding`: normalize to `[-1, 1]` by
`max-abs + 1e-8`, scale by 127, cast to int8, serialize to bytes. -/
def quantize_embedding (v : List ℚ) : List ℕ :=
  let scale := maxAbs v + epsQ
  v.map fun x => int8ToByte (toInt8 (truncQ (x / scale * 127)))

/-- Model of `dequantize_embedding`: reinterpret the bytes as int8,
reshape to `shape` (here: a length; reshape fails unless the byte count
matches, which NumPy reports by raising), divide by `127.0`. -/
def dequantize_embedding (bs : List ℕ) (shape : ℕ) : Option (List ℚ) :=
  if bs.length = shape then some (bs.map fun b => (byteToInt8 b : ℚ) / 127) else none

/-! ## Base64 (storage armor used by `encrypt_biometric` / `decrypt_biometric`)

The code stores the encrypted template as standard base64 text.  We model
characters by their ASCII codes (`=` is 61). -/

/-- The standard base64 alphabet, as ASCII codes (`A-Z`, `a-z`, `0-9`, `+`, `/`). -/
def b64chars : List ℕ :=
  [65, 66, 67, 68, 69, 70, 71, 72, 73, 74, 75, 76, 77, 78, 79, 80, 81, 82,
   83, 84, 85, 86, 87, 88, 89, 90,
   97, 98, 99, 100, 101, 102, 103, 104, 105, 106, 107, 108, 109, 110, 111,
   112, 113, 114, 115, 116, 117, 118, 119, 120, 121, 122,
   48, 49, 50, 51, 52, 53, 54, 55, 56, 57, 43, 47]

/-- Character for a 6-bit digit. -/
def b64char (d : ℕ) : ℕ := b64chars.getD d 0

/-- Digit for a character, `none` if the character is not in the alphabet. -/
def b64digit (c : ℕ) : Option ℕ := b64chars.findIdx? (· = c)

/-- Base64 encoding of a byte list (with `=` padding). -/
def b64encode : List ℕ → List ℕ
  | [] => []
  | [b1] => [b64char (b1 / 4), b64char (b1 % 4 * 16), 61, 61]
  | [b1, b2] => [b64char (b1 / 4), b64char (b1 % 4 * 16 + b2 / 16),
                 b64char (b2 % 16 * 4), 61]
  | b1 :: b2 :: b3 :: rest =>
      b64char (b1 / 4) :: b64char (b1 % 4 * 16 + b2 / 16) ::
      b64char (b2 % 16 * 4 + b3 / 64) :: b64char (b3 % 64) :: b64encode rest

/-- Base64 decoding; `none` on malformed input. -/
def b64decode : List ℕ → Option (List ℕ)
  | [] => some []
  | c1 :: c2 :: c3 :: c4 :: rest =>
      if rest = [] ∧ c3 = 61 ∧ c4 = 61 then
        match b64digit c1, b64digit c2 with
        | some d1, some d2 => some [d1 * 4 + d2 / 16]
        | _, _ => none
      else if rest = [] ∧ c4 = 61 then
        match b64digit c1, b64digit c2, b64digit c3 with
        | some d1, some d2, some d3 =>
            some [d1 * 4 + d2 / 16, d2 % 16 * 16 + d3 / 4]
        | _, _, _ => none
      else
        match b64digit c1, b64digit c2, b64digit c3, b64digit c4,
            b64decode rest with
        | some d1, some d2, some d3, some d4, some bs =>
            some ((d1 * 4 + d2 / 16) :: (d2 % 16 * 16 + d3 / 4) ::
              (d3 % 4 * 64 + d4) :: bs)
        | _, _, _, _, _ => none
  | _ => none

/-! ## AES-GCM (`cryptography`'s `AESGCM`, as used by `crypto.py`)

The block cipher itself is an external primitive; we model it as an
arbitrary 128-bit permutation parameter `E : ℕ → ℕ` (the AES-256
encryption under the process key `BIOMETRIC_ENCRYPTION_KEY[:32]`).  The
GCM mode of operation — CTR encryption, GHASH over GF(2^128), the
appended 16-byte tag, the 12-byte-nonce `J0` construction — follows
NIST SP 800-38D, which is what `AESGCM.encrypt`/`AESGCM.decrypt`
implement.  Blocks are 128-bit naturals, big-endian byte order. -/

/-- Big-endian byte list to natural number. -/
def bytesToBlockBE (bs : List ℕ) : ℕ := bs.foldl (fun acc b => acc * 256 + b) 0

/-- `k` big-endian bytes of `n` (most significant first). -/
def natToBytesBE : ℕ → ℕ → List ℕ
  | 0, _ => []
  | k + 1, n => natToBytesBE k (n / 256) ++ [n % 256]

/-- The 16 big-endian bytes of a 128-bit block. -/
def blockToBytes (n : ℕ) : List ℕ := natToBytesBE 16 n

/-- The GCM reduction constant `R = 0xe1 ∥ 0^120`. -/
def gcmR : ℕ := 0xe1 <<< 120

/-- One hundred twenty-eight shift-and-conditionally-reduce iterations of
the GF(2^128) multiplication `x • y` of SP 800-38D (bit 0 of `x` is the
most significant bit of the block). -/
def gmulAux (x : ℕ) : ℕ → ℕ → ℕ → ℕ
  | 0, _, z => z
  | r + 1, v, z =>
      gmulAux x r (if v.testBit 0 then (v >>> 1) ^^^ gcmR else v >>> 1)
        (if x.testBit r then z ^^^ v else z)

/-- GF(2^128) block multiplication. -/
def gmul (x y : ℕ) : ℕ := gmulAux x 128 y 0

/-- `k`-fold multiplication by `H` on the right: `d • H • H • ⋯ • H`. -/
def gmulIter (H : ℕ) : ℕ → ℕ → ℕ
  | d, 0 => d
  | d, k + 1 => gmulIter H (gmul d H) k

/-- One GHASH step: `s ↦ (s ⊕ b) • H`. -/
def ghashStep (H s b : ℕ) : ℕ := gmul (s ^^^ b) H

/-- GHASH over a list of blocks. -/
def ghash (H : ℕ) (blocks : List ℕ) : ℕ := blocks.foldl (ghashStep H) 0

/-- Zero-pad a partial chunk to 16 bytes. -/
def padTo16 (bs : List ℕ) : List ℕ := bs ++ List.replicate (16 - bs.length) 0

/-- Split a byte list into 128-bit blocks, zero-padding the last chunk
(fuel-based so it reduces by `rfl`). -/
def toBlocksAux : ℕ → List ℕ → List ℕ
  | 0, _ => []
  | _, [] => []
  | f + 1, bs => bytesToBlockBE (padTo16 (bs.take 16)) :: toBlocksAux f (bs.drop 16)

/-- The GHASH blocks of a byte string. -/
def toBlocks (bs : List ℕ) : List ℕ := toBlocksAux bs.length bs

/-- The counter block with the low 32 bits of `j0` incremented by `i` mod `2^32`. -/
def inc32pow (j0 i : ℕ) : ℕ := j0 / 2 ^ 32 * 2 ^ 32 + (j0 % 2 ^ 32 + i) % 2 ^ 32

/-- CTR keystream bytes: blocks `E(inc32^c(J0))`, `E(inc32^(c+1)(J0))`, …. -/
def keystream (E : ℕ → ℕ) (j0 : ℕ) : ℕ → ℕ → List ℕ
  | 0, _ => []
  | k + 1, c => blockToBytes (E (inc32pow j0 c)) ++ keystream E j0 k (c + 1)

/-- GCTR encryption/decryption (it is its own inverse): XOR the message
with the keystream starting at counter `inc32(J0)`. -/
def ctrCrypt (E : ℕ → ℕ) (j0 : ℕ) (msg : List ℕ) : List ℕ :=
  List.zipWith Nat.xor msg (keystream E j0 (msg.length / 16 + 1) 1)

/-- The 16-byte GCM authentication tag over ciphertext `ct` (no AAD):
`GHASH_H(pad(ct) ∥ len64(A)=0 ∥ len64(ct)) ⊕ E(J0)` with `H = E(0)`. -/
def gcmTag (E : ℕ → ℕ) (j0 : ℕ) (ct : List ℕ) : List ℕ :=
  blockToBytes (ghash (E 0) (toBlocks ct ++ [8 * ct.length]) ^^^ E j0)

/-- The `J0` block for a 12-byte nonce: `nonce ∥ 0^31 ∥ 1`. -/
def gcmJ0 (nonce : List ℕ) : ℕ := bytesToBlockBE (nonce ++ [0, 0, 0, 1])

/-- `AESGCM.encrypt(nonce, pt, None)`: ciphertext followed by the 16-byte tag. -/
def aesgcmEncrypt (E : ℕ → ℕ) (nonce pt : List ℕ) : List ℕ :=
  let j0 := gcmJ0 nonce
  let ct := ctrCrypt E j0 pt
  ct ++ gcmTag E j0 ct

/-- `AESGCM.decrypt(nonce, data, None)`: split off the 16-byte tag,
recompute it over the received ciphertext, fail (`InvalidTag`) on
mismatch, otherwise CTR-decrypt. -/
def aesgcmDecrypt (E : ℕ → ℕ) (nonce data : List ℕ) : Option (List ℕ) :=
  if data.length < 16 then none
  else
    let j0 := gcmJ0 nonce
    let ct := data.take (data.length - 16)
    let tag := data.drop (data.length - 16)
    if gcmTag E j0 ct = tag then some (ctrCrypt E j0 ct) else none

/-- Model of `encrypt_biometric`: AES-GCM under the process key (the
keyed block cipher `E`), a 12-byte nonce prefixed to the ciphertext,
base64-encoded for storage. -/
def encrypt_biometric (E : ℕ → ℕ) (nonce t : List ℕ) : List ℕ :=
  b64encode (nonce ++ aesgcmEncrypt E nonce t)

/-- Model of `decrypt_biometric`: base64-decode, split off the 12-byte
nonce, AES-GCM-decrypt the remainder; any failure raises in the code and
is `none` here. -/
def decrypt_biometric (E : ℕ → ℕ) (stored : List ℕ) : Option (List ℕ) :=
  match b64decode stored with
  | none => none
  | some data => aesgcmDecrypt E (data.take 12) (data.drop 12)

/-- Flip (XOR) the byte at position `i` of a byte string with mask `m`. -/
def flipByteAt (bs : List ℕ) (i m : ℕ) : List ℕ := bs.set i (bs.getD i 0 ^^^ m)

/-- The 128-bit block difference caused by XORing byte offset `i` of the
ciphertext with mask `m` (byte `i % 16` of block `i / 16`). -/
def tamperDelta (i m : ℕ) : ℕ := m <<< (8 * (15 - i % 16))

/-! ## Cosine similarity and `compare_embeddings` (`services/biometric/face.py`) -/

/-- Dot product of two rational vectors (`np.dot`). -/
def dotQ : List ℚ → List ℚ → ℚ
  | a :: as, b :: bs => a * b + dotQ as bs
  | _, _ => 0

/-- Sum of squares of a vector (the square of `np.linalg.norm`). -/
def sumSq (v : List ℚ) : ℚ := dotQ v v

/-- Model of `FaceService._cosine_similarity`: 0 on shape mismatch, 0 when
either norm is zero, otherwise the cosine clamped into `[0, 1]`. -/
noncomputable def cosineSimilarity (a b : List ℚ) : ℝ :=
  if a.length ≠ b.length then 0
  else
    if Real.sqrt ((sumSq a : ℚ) : ℝ) = 0 ∨ Real.sqrt ((sumSq b : ℚ) : ℝ) = 0 then 0
    else
      max 0 (min 1 (((dotQ a b : ℚ) : ℝ)
        / (Real.sqrt ((sumSq a : ℚ) : ℝ) * Real.sqrt ((sumSq b : ℚ) : ℝ))))

/-- Result of `compare_embeddings`: `matched` (in the code a boolean
`similarity >= threshold`; over `ℝ` this comparison is a proposition)
and the similarity score. -/
structure CompareResult where
  matched : Prop
  score : ℝ

/-- Model of `FaceService.compare_embeddings`: decrypt the stored template,
dequantize to the live embedding's shape, compute cosine similarity and
compare against the threshold.  Any exception in the pipeline (decryption
failure, reshape failure) is caught and reported as
`(matched = False, score = 0.0)`.  The stored integrity hash and salt do
not influence the result (the secondary hash check in the code only logs). -/
noncomputable def compare_embeddings (E : ℕ → ℕ) (threshold : ℝ)
    (live : List ℚ) (storedEncrypted : List ℕ) : CompareResult :=
  match decrypt_biometric E storedEncrypted with
  | none => ⟨False, 0⟩
  | some bytes =>
    match dequantize_embedding bytes live.length with
    | none => ⟨False, 0⟩
    | some stored => ⟨cosineSimilarity live stored ≥ threshold,
        cosineSimilarity live stored⟩

/-! ## Data model (`models/voter.py`, `models/election.py`) and
configuration (`config.py`) -/

/-- The voter row fields read and mutated by the auth/vote core. -/
structure VoterRec where
  fullName : String
  constituencyId : String
  hasVoted : Bool
  votedAt : Option ℕ
  voteTxHash : Option String
  failedAuthCount : ℕ
  lockedOut : Bool
  lockoutAt : Option ℕ
  blockchainVoterId : String
deriving DecidableEq

/-- `AuthOutcome` enumeration. -/
inductive AuthOutcome where
  | success
  | failure
  | lockout
deriving DecidableEq

/-- One `auth_attempts` row (append-only). -/
structure AttemptRec where
  voterRef : Option String
  method : String
  outcome : AuthOutcome
  failureReason : Option String
  similarityScore : Option ℚ
deriving DecidableEq

/-- One `vote_submissions` row (append-only). -/
structure SubmissionRec where
  voterId : String
  electionId : String
  sessionId : String
  txHash : String
  blockNumber : ℕ
deriving DecidableEq

/-- One `blockchain_transactions` audit row. -/
structure ChainTxRec where
  electionId : String
  txHash : String
deriving DecidableEq

/-- A candidate row as consulted by `cast_vote`. -/
structure CandidateRec where
  id : String
  electionId : String
  constituencyId : String
  onChainId : ℕ
  isActive : Bool
deriving DecidableEq

/-- Static environment: settings plus the admin-owned election data. -/
structure Env where
  votingSecret : String
  jwtSecret : String
  maxAttempts : ℕ
  lockoutDurationMinutes : ℕ
  activeElection : Option String
  candidates : List CandidateRec
  constituencies : List (String × ℕ)

/-- Mutable system state: the voter table, the two append-only stores, the
in-memory used-token map (`used_tokens : session_id ↦ expiry`), and the
audit log. -/
structure SysState where
  voters : String → Option VoterRec
  submissions : List SubmissionRec
  usedTokens : List (String × ℕ)
  attempts : List AttemptRec
  chainTxs : List ChainTxRec

/-- Apply an update to the stored row of one voter (SQL `UPDATE ... WHERE
voter_id = :voter_id`). -/
def updVoter (s : SysState) (vid : String) (f : VoterRec → VoterRec) : SysState :=
  { s with voters := fun x => if x = vid then (s.voters x).map f else s.voters x }

/-- Model of `log_auth_attempt`: append an `auth_attempts` row; the voter
reference is resolved by a sub-select and is NULL when no voter matches. -/
def logAttempt (s : SysState) (vid : String) (outcome : AuthOutcome)
    (reason : Option String) (score : Option ℚ) : SysState :=
  { s with attempts := s.attempts ++
      [{ voterRef := if (s.voters vid).isSome then some vid else none
         method := "face"
         outcome := outcome
         failureReason := reason
         similarityScore := score }] }

/-! ## Session tokens (`middleware/auth.py`) -/

/-- A signed voting-session token: the JWT payload plus the secret that
signed it (signature verification succeeds exactly for tokens signed with
the expected secret). -/
structure Token where
  voterId : String
  electionId : String
  constituencyId : String
  sessionId : String
  iat : ℕ
  exp : ℕ
  typ : String
  signedWith : String
deriving DecidableEq

/-- Model of `create_voting_session_token`: claims carry the voter,
election, constituency and session ids, `iat = now`, `exp = now + 300`
(5 minutes), `type = "voting_session"`, signed with the voting-session
secret. -/
def create_voting_session_token (secret vid eid cid sid : String) (now : ℕ) : Token :=
  { voterId := vid
    electionId := eid
    constituencyId := cid
    sessionId := sid
    iat := now
    exp := now + 300
    typ := "voting_session"
    signedWith := secret }

/-- The validated claims returned by `get_current_session`. -/
structure SessionData where
  voterId : String
  electionId : String
  constituencyId : String
  sessionId : String
deriving DecidableEq

/-- Errors of `get_current_session`.  Signature failure, expiry, a wrong
`type` claim and missing claims all raise the same 401 credentials
exception; the re-resolved voter state yields distinct 404/409/403
errors. -/
inductive SessionError where
  | invalidSession
  | voterNotFound
  | alreadyVoted
  | lockedOut
deriving DecidableEq

/-- Model of `get_current_session`: verify the signature against the
voting-session secret (a token signed with any other secret, e.g. the
admin `JWT_SECRET`, fails `jwt.decode`), reject expired tokens
(`exp < now`), require `type = "voting_session"` and all four claims
non-empty, then re-resolve the voter and require that it exists, has not
voted and is not locked out. -/
def get_current_session (env : Env) (tok : Token) (now : ℕ) (s : SysState) :
    Except SessionError SessionData :=
  if tok.signedWith ≠ env.votingSecret then .error .invalidSession
  else if tok.exp < now then .error .invalidSession
  else if tok.typ ≠ "voting_session" then .error .invalidSession
  else if tok.voterId = "" ∨ tok.electionId = "" ∨ tok.constituencyId = ""
      ∨ tok.sessionId = "" then .error .invalidSession
  else
    match s.voters tok.voterId with
    | none => .error .voterNotFound
    | some v =>
      if v.hasVoted then .error .alreadyVoted
      else if v.lockedOut then .error .lockedOut
      else .ok { voterId := tok.voterId
                 electionId := tok.electionId
                 constituencyId := tok.constituencyId
                 sessionId := tok.sessionId }

/-! ## Authentication (`routers/voting.py`, `authenticate_with_face`) -/

/-- Results of `authenticate_with_face` (HTTP status in parentheses). -/
inductive AuthResult where
  | ok (tok : Token)
  | voterNotFound
  | alreadyVoted
  | lockedOut (remainingMinutes : ℕ)
  | maxAttempts
  | badImage
  | mismatch (remainingAttempts : ℤ)
  | noElection
deriving DecidableEq

/-- The lazy lockout gate at the start of `authenticate_with_face`: while
the lockout window is open the request fails fast; once it has elapsed the
stored row is reset (`locked_out = FALSE, failed_auth_count = 0`) and the
attempt continues.  The caller keeps using the *stale* fetched row. -/
def lockoutGate (env : Env) (vid : String) (voter : VoterRec) (now : ℕ)
    (s : SysState) : Except (SysState × AuthResult) SysState :=
  if voter.lockedOut then
    match voter.lockoutAt with
    | some t0 =>
      if now < t0 + env.lockoutDurationMinutes * 60 then
        .error (logAttempt s vid .lockout
            (some "Account locked") none,
          .lockedOut ((t0 + env.lockoutDurationMinutes * 60 - now) / 60))
      else
        .ok (updVoter s vid fun v =>
          { v with lockedOut := false, failedAuthCount := 0 })
    | none =>
      .ok (updVoter s vid fun v =>
        { v with lockedOut := false, failedAuthCount := 0 })
  else .ok s

/-- Model of `authenticate_with_face`.  `bio` is the outcome of the
biometric pipeline: `none` when decoding/embedding raises
`BiometricAuthError`, `some (matched, score)` for a completed comparison
(`compare_embeddings` never raises).  `sid` is the fresh `uuid4` session
id.  All row reads after the initial SELECT use the stale `voter` row,
exactly as the code does. -/
def authenticate_with_face (env : Env) (vid sid : String)
    (bio : Option (Bool × ℚ)) (now : ℕ) (s : SysState) : SysState × AuthResult :=
  match s.voters vid with
  | none => (logAttempt s vid .failure (some "Voter not found") none, .voterNotFound)
  | some voter =>
    if voter.hasVoted then
      (logAttempt s vid .failure (some "Already voted") none, .alreadyVoted)
    else
      match lockoutGate env vid voter now s with
      | .error r => r
      | .ok s1 =>
        if env.maxAttempts ≤ voter.failedAuthCount then
          let s2 := updVoter s1 vid fun v =>
            { v with lockedOut := true, lockoutAt := some now }
          (logAttempt s2 vid .lockout (some "Max attempts exceeded") none,
           .maxAttempts)
        else
          match bio with
          | none =>
            (logAttempt s1 vid .failure (some "Biometric error") none, .badImage)
          | some (matched, score) =>
            if matched = false then
              let newCount := voter.failedAuthCount + 1
              let s3 := updVoter s1 vid fun v =>
                { v with failedAuthCount := newCount }
              (logAttempt s3 vid .failure (some "Face not matched") (some score),
               .mismatch ((env.maxAttempts : ℤ) - (newCount : ℤ)))
            else
              let s4 := updVoter s1 vid fun v => { v with failedAuthCount := 0 }
              match env.activeElection with
              | none => (s4, .noElection)
              | some eid =>
                (logAttempt s4 vid .success none (some score),
                 .ok (create_voting_session_token env.votingSecret vid eid
                   voter.constituencyId sid now))

/-! ## Vote casting (`routers/voting.py`, `cast_vote`) -/

/-- Results of `cast_vote` (HTTP status in parentheses). -/
inductive CastResult where
  | success (txHash : String) (blockNumber : ℕ)
  | sessionError (e : SessionError)
  | replay
  | voterNotFound
  | alreadyVoted
  | lockedOut
  | candidateNotFound
  | candidateInactive
  | wrongConstituency
  | constituencyNotFound
  | ledgerUnavailable
deriving DecidableEq

/-- A successful blockchain submission receipt. -/
structure LedgerReceipt where
  txHash : String
  blockNumber : ℕ
  gasUsed : ℕ
deriving DecidableEq

/-- Does the string begin with the two characters `0x`? -/
def hexHead (s : String) : Bool :=
  match s.data with
  | '0' :: 'x' :: _ => true
  | _ => false

/-- Ensure a `0x` head on the transaction hash before it is stored. -/
def withHexHead (h : String) : String := if hexHead h then h else "0x" ++ h

/-- Model of `clean_expired_tokens`: drop used-token entries whose expiry
has passed. -/
def clean_expired_tokens (toks : List (String × ℕ)) (now : ℕ) : List (String × ℕ) :=
  toks.filter fun p => ¬ p.2 < now

/-- Model of `cast_vote`.  The voting-session token is validated by the
`get_current_session` dependency first; then the single-use tracker, the
voter row, the candidate, and the constituency are checked; then the vote
is submitted to the ledger (`ledger = none` models `BlockchainError`); on
ledger success the submission row, the voter flags and the audit row are
committed together, the session id is recorded as used for 10 minutes, and
expired entries are cleaned. -/
def cast_vote (env : Env) (tok : Token) (candidateId : String)
    (ledger : Option LedgerReceipt) (now : ℕ) (s : SysState) :
    SysState × CastResult :=
  match get_current_session env tok now s with
  | .error e => (s, .sessionError e)
  | .ok sd =>
    if s.usedTokens.any fun p => p.1 = sd.sessionId then (s, .replay)
    else
      match s.voters sd.voterId with
      | none => (s, .voterNotFound)
      | some voter =>
        if voter.hasVoted then (s, .alreadyVoted)
        else if voter.lockedOut then (s, .lockedOut)
        else
          match env.candidates.find? fun c =>
              c.id == candidateId && c.electionId == sd.electionId with
          | none => (s, .candidateNotFound)
          | some cand =>
            if cand.isActive = false then (s, .candidateInactive)
            else if cand.constituencyId ≠ sd.constituencyId then
              (s, .wrongConstituency)
            else
              match env.constituencies.find? fun p => p.1 == sd.constituencyId with
              | none => (s, .constituencyNotFound)
              | some _chain =>
                match ledger with
                | none => (s, .ledgerUnavailable)
                | some receipt =>
                  let txh := withHexHead receipt.txHash
                  let sub : SubmissionRec :=
                    { voterId := sd.voterId
                      electionId := sd.electionId
                      sessionId := sd.sessionId
                      txHash := txh
                      blockNumber := receipt.blockNumber }
                  let ctx : ChainTxRec := { electionId := sd.electionId, txHash := txh }
                  let s1 := { s with
                    submissions := sub :: s.submissions
                    chainTxs := ctx :: s.chainTxs }
                  let s2 := updVoter s1 sd.voterId fun v =>
                    { v with hasVoted := true
                             votedAt := some now
                             voteTxHash := some txh }
                  let s3 := { s2 with usedTokens :=
                    (clean_expired_tokens ((sd.sessionId, now + 600) :: s2.usedTokens)
                      now) }
                  (s3, .success txh receipt.blockNumber)

/-! ## Operation sequences -/

/-- One externally-triggered operation against the service. -/
inductive Op where
  | auth (vid sid : String) (bio : Option (Bool × ℚ)) (now : ℕ)
  | cast (tok : Token) (candidateId : String) (ledger : Option LedgerReceipt)
      (now : ℕ)

/-- The state reached after one operation. -/
def applyOp (env : Env) (s : SysState) : Op → SysState
  | .auth vid sid bio now => (authenticate_with_face env vid sid bio now s).1
  | .cast tok cand ledg now => (cast_vote env tok cand ledg now s).1

/-- The state reached after a sequence of operations. -/
def execOps (env : Env) : SysState → List Op → SysState
  | s, [] => s
  | s, op :: rest => execOps env (applyOp env s op) rest

/-- The time attached to an operation. -/
def Op.time : Op → ℕ
  | .auth _ _ _ now => now
  | .cast _ _ _ now => now

/-- `Evolves s t1 t2 s'`: `s'` is reachable from `s` by operations whose
times are nondecreasing and lie in the window `[t1, t2]`. -/
inductive Evolves (env : Env) : SysState → ℕ → ℕ → SysState → Prop where
  | nil (s : SysState) {t1 t2 : ℕ} (h : t1 ≤ t2) : Evolves env s t1 t2 s
  | step (s : SysState) {t1 t2 : ℕ} (op : Op) (h1 : t1 ≤ op.time)
      {s' : SysState} (hrest : Evolves env (applyOp env s op) op.time t2 s') :
      Evolves env s t1 t2 s'

/-- Number of `vote_submissions` rows for one voter. -/
def subsFor (s : SysState) (vid : String) : ℕ :=
  (s.submissions.filter fun r => r.voterId == vid).length

/-- Number of `vote_submissions` rows for one `(voter, election)` pair. -/
def subsForElection (s : SysState) (vid eid : String) : ℕ :=
  (s.submissions.filter fun r => r.voterId == vid && r.electionId == eid).length

/-- The single-vote invariant: a voter's `has_voted` flag is `true` exactly
when one submission row exists for them, and voters absent from the table
have no submissions. -/
def VoteInv (s : SysState) : Prop :=
  ∀ vid, match s.voters vid with
    | none => subsFor s vid = 0
    | some v => subsFor s vid = if v.hasVoted then 1 else 0

/-- Enrollment-time initial state: no votes cast and no submission rows. -/
def InitOk (s : SysState) : Prop :=
  s.submissions = [] ∧ ∀ vid v, s.voters vid = some v → v.hasVoted = false

/-- Number of failure outcomes in the attempt ledger. -/
def failureCount (s : SysState) : ℕ :=
  (s.attempts.filter fun a => a.outcome == AuthOutcome.failure).length

/-- `s'` agrees with `s` on everything `VoteInv` observes: the submission
table and each voter's existence and `has_voted` flag. -/
def sameVotes (s s' : SysState) : Prop :=
  s'.submissions = s.submissions ∧
  ∀ w, (s'.voters w).map (·.hasVoted) = (s.voters w).map (·.hasVoted)

/-! ### Definitions end, theorems begin (quantization) -/

lemma maxAbs_nonneg (v : List ℚ) : 0 ≤ maxAbs v := by
  induction v with
  | nil => simp [maxAbs]
  | cons x xs ih =>
    simp only [maxAbs, List.foldr_cons] at *
    exact le_max_of_le_right ih

lemma abs_le_maxAbs {v : List ℚ} {x : ℚ} (hx : x ∈ v) : |x| ≤ maxAbs v := by
  induction v with
  | nil => cases hx
  | cons y ys ih =>
    rcases List.mem_cons.mp hx with h | h
    · subst h; exact le_max_left _ _
    · exact le_trans (ih h) (le_max_right _ _)

lemma truncQ_close (x : ℚ) : |x - (truncQ x : ℚ)| < 1 := by
  unfold truncQ
  split
  · next h =>
    have h1 : ((⌊x⌋ : ℤ) : ℚ) ≤ x := Int.floor_le x
    have h2 : x < ⌊x⌋ + 1 := Int.lt_floor_add_one x
    rw [abs_sub_lt_iff]; constructor <;> linarith
  · next h =>
    have h1 : x ≤ ((⌈x⌉ : ℤ) : ℚ) := Int.le_ceil x
    have h2 : ((⌈x⌉ : ℤ) : ℚ) < x + 1 := Int.ceil_lt_add_one x
    rw [abs_sub_lt_iff]; constructor <;> linarith

lemma truncQ_abs_le (x : ℚ) : |(truncQ x : ℚ)| ≤ |x| := by
  unfold truncQ
  split
  · next h =>
    rw [abs_of_nonneg h, abs_of_nonneg]
    · exact_mod_cast Int.floor_le x
    · exact_mod_cast Int.floor_nonneg.mpr h
  · next h =>
    push_neg at h
    rw [abs_of_neg h, abs_of_nonpos]
    · have := Int.le_ceil x
      linarith
    · have : ⌈x⌉ ≤ 0 := Int.ceil_le.mpr (by exact_mod_cast h.le)
      exact_mod_cast this

lemma toInt8_id {z : ℤ} (h1 : -128 ≤ z) (h2 : z ≤ 127) : toInt8 z = z := by
  unfold toInt8; omega

lemma byteToInt8_int8ToByte {z : ℤ} (h1 : -128 ≤ z) (h2 : z ≤ 127) :
    byteToInt8 (int8ToByte z) = z := by
  unfold byteToInt8 int8ToByte
  split <;> omega

/-- One component of the quantize/dequantize round trip: the result is the
*normalized* component `x / scale` up to truncation error `< 1/127`. -/
lemma roundtrip_component (x scale : ℚ) (hs : 0 < scale) (hx : |x| < scale) :
    |(byteToInt8 (int8ToByte (toInt8 (truncQ (x / scale * 127)))) : ℚ) / 127
      - x / scale| < 1 / 127 := by
  set y : ℚ := x / scale * 127 with hy
  have hn : |x / scale| < 1 := by
    rw [abs_div, abs_of_pos hs]
    exact (div_lt_one hs).mpr hx
  have hy127 : |y| < 127 := by
    rw [hy, abs_mul]
    calc |x / scale| * |(127 : ℚ)| < 1 * 127 := by
          rw [abs_of_pos (by norm_num : (0:ℚ) < 127)]
          exact mul_lt_mul_of_pos_right hn (by norm_num)
      _ = 127 := by ring
  have hz : |(truncQ y : ℚ)| < 127 := lt_of_le_of_lt (truncQ_abs_le y) hy127
  have hzb : -128 ≤ truncQ y ∧ truncQ y ≤ 127 := by
    rw [abs_lt] at hz
    have h1 : (-127 : ℤ) < truncQ y := by exact_mod_cast hz.1
    have h2 : truncQ y < 127 := by exact_mod_cast hz.2
    omega
  rw [toInt8_id hzb.1 hzb.2, byteToInt8_int8ToByte hzb.1 hzb.2]
  have hxy : x / scale = y / 127 := by rw [hy]; field_simp; ring
  rw [hxy, div_sub_div_same, abs_div, abs_of_pos (by norm_num : (0:ℚ) < 127)]
  have h1 : |(truncQ y : ℚ) - y| < 1 := by
    rw [abs_sub_comm]; exact truncQ_close y
  linarith

/-- C8 (amended): the quantize/dequantize round trip reconstructs the
*normalized* vector `v / (maxAbs v + 1e-8)` — whose entries lie in
`(-1, 1)` — with componentwise absolute error below `1/127`.  It does not
reconstruct `v` itself up to `maxAbs v / 127`: `dequantize_embedding`
only divides by `127.0` and never re-applies the normalization scale. -/
theorem c8_roundtrip_normalized (v : List ℚ) (_hv : ∃ x ∈ v, x ≠ 0) :
    ∃ w, dequantize_embedding (quantize_embedding v) v.length = some w ∧
      w.length = v.length ∧
      ∀ i, i < v.length →
        |w.getD i 0 - v.getD i 0 / (maxAbs v + epsQ)| < 1 / 127 := by
  clear _hv
  have hs : 0 < maxAbs v + epsQ :=
    add_pos_of_nonneg_of_pos (maxAbs_nonneg v) (by norm_num [epsQ])
  have hlen : (quantize_embedding v).length = v.length := by
    simp [quantize_embedding]
  refine ⟨(quantize_embedding v).map fun b => (byteToInt8 b : ℚ) / 127, ?_, ?_, ?_⟩
  · unfold dequantize_embedding
    rw [if_pos hlen]
  · simp [hlen]
  · intro i hi
    have hiq : i < (quantize_embedding v).length := by rw [hlen]; exact hi
    have hw : ((quantize_embedding v).map fun b => (byteToInt8 b : ℚ) / 127).getD i 0
        = (byteToInt8 ((quantize_embedding v).getD i 0) : ℚ) / 127 := by
      rw [List.getD_eq_getElem _ _ (by simpa using hiq), List.getElem_map,
        List.getD_eq_getElem _ _ hiq]
    have hq : (quantize_embedding v).getD i 0
        = int8ToByte (toInt8 (truncQ (v.getD i 0 / (maxAbs v + epsQ) * 127))) := by
      rw [List.getD_eq_getElem _ _ hiq, List.getD_eq_getElem _ _ hi]
      simp [quantize_embedding]
    have hmem : v.getD i 0 ∈ v := by
      rw [List.getD_eq_getElem _ _ hi]
      exact List.getElem_mem hi
    rw [hw, hq]
    exact roundtrip_component (v.getD i 0) (maxAbs v + epsQ) hs
      (lt_of_le_of_lt (abs_le_maxAbs hmem)
        (lt_add_of_pos_right _ (by norm_num [epsQ])))

/-- C8 counterexample: for `v = [2]` the round trip yields `126/127 ≈ 0.992`,
while the claim demands error at most `maxAbs v / 127 = 2/127` against the
original vector; the actual error is `128/127`. -/
theorem c8_not_original_scale :
    dequantize_embedding (quantize_embedding [(2 : ℚ)]) 1 = some [126 / 127] ∧
    maxAbs [(2 : ℚ)] = 2 ∧
    ¬ |(126 / 127 : ℚ) - 2| ≤ 2 / 127 := by
  have hmax : maxAbs [(2 : ℚ)] = 2 := by norm_num [maxAbs]
  have hfloor : truncQ ((2 : ℚ) / (2 + epsQ) * 127) = 126 := by
    unfold truncQ
    rw [if_pos (by norm_num [epsQ]), Int.floor_eq_iff]
    constructor <;> norm_num [epsQ]
  have hquant : quantize_embedding [(2 : ℚ)] = [126] := by
    simp only [quantize_embedding, List.map_cons, List.map_nil, hmax, hfloor]
    norm_num [toInt8, int8ToByte]
    rfl
  refine ⟨?_, hmax, ?_⟩
  · rw [hquant]
    simp only [dequantize_embedding, List.length_cons, List.length_nil, if_pos,
      List.map_cons, List.map_nil]
    norm_num [byteToInt8]
  · rw [abs_of_neg (by norm_num)]
    norm_num

/-! ### Base64 round trip -/

lemma b64digit_b64char : ∀ d < 64, b64digit (b64char d) = some d := by decide

lemma b64char_ne_61 : ∀ d < 64, b64char d ≠ 61 := by decide

lemma b64decode_b64encode :
    ∀ bs : List ℕ, (∀ b ∈ bs, b < 256) → b64decode (b64encode bs) = some bs := by
  intro bs
  induction bs using b64encode.induct with
  | case1 => intro _; rfl
  | case2 b1 =>
    intro h
    have hb1 : b1 < 256 := h b1 (by simp)
    simp only [b64encode, b64decode]
    rw [if_pos (by simp),
      b64digit_b64char _ (by omega), b64digit_b64char _ (by omega)]
    simp only [Option.some.injEq, List.cons.injEq, and_true]
    omega
  | case3 b1 b2 =>
    intro h
    have hb1 : b1 < 256 := h b1 (by simp)
    have hb2 : b2 < 256 := h b2 (by simp)
    simp only [b64encode, b64decode]
    rw [if_neg (by
      rintro ⟨-, h61, -⟩
      exact b64char_ne_61 _ (by omega) h61)]
    rw [if_pos (by simp),
      b64digit_b64char _ (by omega), b64digit_b64char _ (by omega),
      b64digit_b64char _ (by omega)]
    simp only [Option.some.injEq, List.cons.injEq, and_true]
    omega
  | case4 b1 b2 b3 rest ih =>
    intro h
    have hb1 : b1 < 256 := h b1 (by simp)
    have hb2 : b2 < 256 := h b2 (by simp)
    have hb3 : b3 < 256 := h b3 (by simp)
    have hrest : ∀ b ∈ rest, b < 256 := fun b hb => h b (by simp [hb])
    simp only [b64encode, b64decode]
    rw [if_neg (by
      rintro ⟨-, -, h61⟩
      exact b64char_ne_61 _ (by omega) h61)]
    rw [if_neg (by
      rintro ⟨-, h61⟩
      exact b64char_ne_61 _ (by omega) h61)]
    rw [b64digit_b64char _ (by omega), b64digit_b64char _ (by omega),
      b64digit_b64char _ (by omega), b64digit_b64char _ (by omega),
      ih hrest]
    simp only [Option.some.injEq, List.cons.injEq]
    refine ⟨by omega, by omega, by omega, trivial⟩

/-! ### Bytes and 128-bit blocks -/

lemma natToBytesBE_length (k n : ℕ) : (natToBytesBE k n).length = k := by
  induction k generalizing n with
  | zero => rfl
  | succ k ih => simp [natToBytesBE, ih]

lemma natToBytesBE_lt (k n : ℕ) : ∀ b ∈ natToBytesBE k n, b < 256 := by
  induction k generalizing n with
  | zero => simp [natToBytesBE]
  | succ k ih =>
    intro b hb
    simp only [natToBytesBE, List.mem_append, List.mem_singleton] at hb
    rcases hb with hb | hb
    · exact ih _ _ hb
    · subst hb; exact Nat.mod_lt _ (by norm_num)

lemma foldl_block_acc (bs : List ℕ) (acc : ℕ) :
    bs.foldl (fun a b => a * 256 + b) acc
      = acc * 256 ^ bs.length + bytesToBlockBE bs := by
  induction bs generalizing acc with
  | nil => simp [bytesToBlockBE]
  | cons b bs ih =>
    show bs.foldl _ (acc * 256 + b) = _
    have hrhs : bytesToBlockBE (b :: bs) = bs.foldl (fun a b => a * 256 + b) (0 * 256 + b) :=
      rfl
    rw [ih (acc * 256 + b), List.length_cons, hrhs, ih (0 * 256 + b)]
    ring

lemma bytesToBlockBE_cons (b : ℕ) (bs : List ℕ) :
    bytesToBlockBE (b :: bs) = b * 256 ^ bs.length + bytesToBlockBE bs := by
  show bs.foldl (fun a b => a * 256 + b) (0 * 256 + b) = _
  rw [foldl_block_acc]
  ring

lemma bytesToBlockBE_natToBytesBE (k n : ℕ) :
    bytesToBlockBE (natToBytesBE k n) = n % 256 ^ k := by
  induction k generalizing n with
  | zero => simp [natToBytesBE, bytesToBlockBE, Nat.mod_one]
  | succ k ih =>
    have happ : bytesToBlockBE (natToBytesBE k (n / 256) ++ [n % 256])
        = bytesToBlockBE (natToBytesBE k (n / 256)) * 256 + n % 256 := by
      show List.foldl _ 0 _ = _
      rw [List.foldl_append]
      rfl
    rw [natToBytesBE, happ, ih (n / 256), pow_succ']
    rw [Nat.mod_mul]
    ring

lemma bytesToBlockBE_lt {bs : List ℕ} (h : ∀ b ∈ bs, b < 256) :
    bytesToBlockBE bs < 256 ^ bs.length := by
  induction bs with
  | nil => simp [bytesToBlockBE]
  | cons b bs ih =>
    have hb : b < 256 := h b (by simp)
    have hrec := ih fun x hx => h x (by simp [hx])
    have hP : 0 < 256 ^ bs.length := pow_pos (by norm_num) _
    rw [bytesToBlockBE_cons, List.length_cons]
    calc b * 256 ^ bs.length + bytesToBlockBE bs
        < b * 256 ^ bs.length + 256 ^ bs.length := Nat.add_lt_add_left hrec _
      _ = (b + 1) * 256 ^ bs.length := by ring
      _ ≤ 256 * 256 ^ bs.length := Nat.mul_le_mul_right _ (by omega)
      _ = 256 ^ (bs.length + 1) := by ring

lemma blockToBytes_length (n : ℕ) : (blockToBytes n).length = 16 :=
  natToBytesBE_length 16 n

lemma blockToBytes_lt (n : ℕ) : ∀ b ∈ blockToBytes n, b < 256 :=
  natToBytesBE_lt 16 n

lemma bytesToBlockBE_blockToBytes {n : ℕ} (h : n < 2 ^ 128) :
    bytesToBlockBE (blockToBytes n) = n := by
  have h16 : (256 : ℕ) ^ 16 = 2 ^ 128 := by norm_num
  rw [blockToBytes, bytesToBlockBE_natToBytesBE, h16, Nat.mod_eq_of_lt h]

lemma blockToBytes_injective {a b : ℕ} (ha : a < 2 ^ 128) (hb : b < 2 ^ 128)
    (h : blockToBytes a = blockToBytes b) : a = b := by
  rw [← bytesToBlockBE_blockToBytes ha, ← bytesToBlockBE_blockToBytes hb, h]

/-! ### XOR algebra on ℕ -/

lemma xor_cancel_pair (a b c : ℕ) : (a ^^^ c) ^^^ (b ^^^ c) = a ^^^ b := by
  apply Nat.eq_of_testBit_eq
  intro i
  simp only [Nat.testBit_xor]
  cases a.testBit i <;> cases b.testBit i <;> cases c.testBit i <;> rfl

lemma xor_right_comm (a b c : ℕ) : (a ^^^ b) ^^^ c = (a ^^^ c) ^^^ b := by
  apply Nat.eq_of_testBit_eq
  intro i
  simp only [Nat.testBit_xor]
  cases a.testBit i <;> cases b.testBit i <;> cases c.testBit i <;> rfl

lemma xor_left_eq_zero {a m : ℕ} (h : a ^^^ m = a) : m = 0 := by
  calc m = a ^^^ (a ^^^ m) := by rw [← Nat.xor_assoc, Nat.xor_self, Nat.zero_xor]
    _ = a ^^^ a := by rw [h]
    _ = 0 := Nat.xor_self a

lemma xor_ne_of_ne_zero {a m : ℕ} (hm : m ≠ 0) : a ^^^ m ≠ a :=
  fun h => hm (xor_left_eq_zero h)

/-! ### GF(2^128) multiplication: linearity and bounds -/

lemma gmulAux_zero_left (r v z : ℕ) : gmulAux 0 r v z = z := by
  induction r generalizing v z with
  | zero => rfl
  | succ r ih => simp [gmulAux, Nat.zero_testBit, ih]

lemma gmulAux_xor_left (x y : ℕ) :
    ∀ r v z w : ℕ,
      gmulAux (x ^^^ y) r v (z ^^^ w) = gmulAux x r v z ^^^ gmulAux y r v w := by
  intro r
  induction r with
  | zero => intro v z w; rfl
  | succ r ih =>
    intro v z w
    simp only [gmulAux, Nat.testBit_xor]
    cases hx : x.testBit r <;> cases hy : y.testBit r <;> simp [hx, hy]
    · exact ih _ z w
    · rw [show (z ^^^ w) ^^^ v = z ^^^ (w ^^^ v) from Nat.xor_assoc z w v]
      exact ih _ z (w ^^^ v)
    · rw [show (z ^^^ w) ^^^ v = (z ^^^ v) ^^^ w from xor_right_comm z w v]
      exact ih _ (z ^^^ v) w
    · rw [show z ^^^ w = (z ^^^ v) ^^^ (w ^^^ v) from (xor_cancel_pair z w v).symm]
      exact ih _ (z ^^^ v) (w ^^^ v)

lemma gmul_xor_left (a b H : ℕ) : gmul (a ^^^ b) H = gmul a H ^^^ gmul b H := by
  have h := gmulAux_xor_left a b 128 H 0 0
  simpa [gmul] using h

lemma gmul_zero_left (H : ℕ) : gmul 0 H = 0 := gmulAux_zero_left _ _ _

lemma gcmR_lt : gcmR < 2 ^ 128 := by
  rw [gcmR, Nat.shiftLeft_eq]
  norm_num

lemma gmulAux_lt (x : ℕ) : ∀ r {v z : ℕ}, v < 2 ^ 128 → z < 2 ^ 128 →
    gmulAux x r v z < 2 ^ 128 := by
  intro r
  induction r with
  | zero => intro v z _ hz; exact hz
  | succ r ih =>
    intro v z hv hz
    refine ih ?_ ?_
    · have hv2 : v >>> 1 < 2 ^ 128 :=
        lt_of_le_of_lt (by rw [Nat.shiftRight_eq_div_pow]; exact Nat.div_le_self _ _) hv
      split
      · exact Nat.xor_lt_two_pow hv2 gcmR_lt
      · exact hv2
    · split
      · exact Nat.xor_lt_two_pow hz hv
      · exact hz

lemma gmul_lt (x : ℕ) {y : ℕ} (hy : y < 2 ^ 128) : gmul x y < 2 ^ 128 :=
  gmulAux_lt x 128 hy (by positivity)

/-! ### GHASH: shifting and single-block modification -/

lemma ghash_fold_lt {H : ℕ} (hH : H < 2 ^ 128) (bs : List ℕ) :
    ∀ {s : ℕ}, s < 2 ^ 128 → bs.foldl (ghashStep H) s < 2 ^ 128 := by
  induction bs with
  | nil => intro s hs; exact hs
  | cons b bs ih => intro s _; exact ih (gmul_lt _ hH)

lemma ghash_lt {H : ℕ} (hH : H < 2 ^ 128) (bs : List ℕ) : ghash H bs < 2 ^ 128 :=
  ghash_fold_lt hH bs (by positivity)

lemma ghash_fold_shift (H : ℕ) (bs : List ℕ) :
    ∀ d s, bs.foldl (ghashStep H) (s ^^^ d)
      = bs.foldl (ghashStep H) s ^^^ gmulIter H d bs.length := by
  induction bs with
  | nil => intro d s; rfl
  | cons b bs ih =>
    intro d s
    simp only [List.foldl_cons, List.length_cons]
    have hstep : ghashStep H (s ^^^ d) b = ghashStep H s b ^^^ gmul d H := by
      unfold ghashStep
      rw [xor_right_comm s d b]
      exact gmul_xor_left _ _ _
    rw [hstep, ih (gmul d H) (ghashStep H s b)]
    rfl

lemma ghash_fold_set (H Δ : ℕ) (bs : List ℕ) :
    ∀ j s, j < bs.length →
      (bs.set j (bs.getD j 0 ^^^ Δ)).foldl (ghashStep H) s
        = bs.foldl (ghashStep H) s ^^^ gmulIter H (gmul Δ H) (bs.length - j - 1) := by
  induction bs with
  | nil => intro j s hj; simp at hj
  | cons b bs ih =>
    intro j s hj
    cases j with
    | zero =>
      simp only [List.getD_cons_zero, List.set_cons_zero, List.foldl_cons,
        List.length_cons]
      have hstep : ghashStep H s (b ^^^ Δ) = ghashStep H s b ^^^ gmul Δ H := by
        unfold ghashStep
        rw [← Nat.xor_assoc]
        exact gmul_xor_left _ _ _
      rw [hstep, ghash_fold_shift H bs (gmul Δ H) (ghashStep H s b)]
      rfl
    | succ j =>
      simp only [List.getD_cons_succ, List.set_cons_succ, List.foldl_cons,
        List.length_cons] at hj ⊢
      rw [ih j (ghashStep H s b) (by omega)]
      have hc : bs.length + 1 - (j + 1) - 1 = bs.length - j - 1 := by omega
      rw [hc]

lemma ghash_set (H Δ : ℕ) (bs : List ℕ) (j : ℕ) (hj : j < bs.length) :
    ghash H (bs.set j (bs.getD j 0 ^^^ Δ))
      = ghash H bs ^^^ gmulIter H (gmul Δ H) (bs.length - j - 1) :=
  ghash_fold_set H Δ bs j 0 hj

/-! ### CTR mode -/

lemma zipWith_xor_lt : ∀ (as bs : List ℕ), (∀ a ∈ as, a < 256) →
    (∀ b ∈ bs, b < 256) → ∀ x ∈ List.zipWith Nat.xor as bs, x < 256 := by
  intro as
  induction as with
  | nil => intro bs _ _ x hx; simp at hx
  | cons a as ih =>
    intro bs ha hb x hx
    cases bs with
    | nil => simp at hx
    | cons b bs =>
      simp only [List.zipWith_cons_cons, List.mem_cons] at hx
      rcases hx with hx | hx
      · subst hx
        have h8 : (256 : ℕ) = 2 ^ 8 := rfl
        rw [h8]
        exact Nat.xor_lt_two_pow (ha a (by simp)) (hb b (by simp))
      · exact ih bs (fun y hy => ha y (by simp [hy])) (fun y hy => hb y (by simp [hy])) x hx

lemma zipWith_xor_xor (msg : List ℕ) : ∀ ks : List ℕ, msg.length ≤ ks.length →
    List.zipWith Nat.xor (List.zipWith Nat.xor msg ks) ks = msg := by
  induction msg with
  | nil => intro ks _; rfl
  | cons m ms ih =>
    intro ks hk
    cases ks with
    | nil => simp at hk
    | cons k ks =>
      simp only [List.zipWith_cons_cons, List.length_cons] at hk ⊢
      rw [ih ks (by omega)]
      congr 1
      show (m ^^^ k) ^^^ k = m
      rw [Nat.xor_assoc, Nat.xor_self, Nat.xor_zero]

lemma keystream_length (E : ℕ → ℕ) (j0 : ℕ) :
    ∀ k c, (keystream E j0 k c).length = 16 * k := by
  intro k
  induction k with
  | zero => intro c; rfl
  | succ k ih =>
    intro c
    simp only [keystream, List.length_append, blockToBytes_length, ih]
    omega

lemma keystream_lt (E : ℕ → ℕ) (j0 : ℕ) :
    ∀ k c, ∀ b ∈ keystream E j0 k c, b < 256 := by
  intro k
  induction k with
  | zero => intro c b hb; simp [keystream] at hb
  | succ k ih =>
    intro c b hb
    simp only [keystream, List.mem_append] at hb
    rcases hb with hb | hb
    · exact blockToBytes_lt _ b hb
    · exact ih (c + 1) b hb

lemma ctrCrypt_length (E : ℕ → ℕ) (j0 : ℕ) (msg : List ℕ) :
    (ctrCrypt E j0 msg).length = msg.length := by
  unfold ctrCrypt
  rw [List.length_zipWith, keystream_length]
  omega

lemma ctrCrypt_lt (E : ℕ → ℕ) (j0 : ℕ) (msg : List ℕ) (hm : ∀ b ∈ msg, b < 256) :
    ∀ b ∈ ctrCrypt E j0 msg, b < 256 := by
  unfold ctrCrypt
  exact zipWith_xor_lt _ _ hm (keystream_lt E j0 _ _)

lemma ctrCrypt_ctrCrypt (E : ℕ → ℕ) (j0 : ℕ) (msg : List ℕ) :
    ctrCrypt E j0 (ctrCrypt E j0 msg) = msg := by
  have hl := ctrCrypt_length E j0 msg
  conv_lhs => rw [ctrCrypt, hl]
  rw [ctrCrypt]
  apply zipWith_xor_xor
  rw [keystream_length]
  omega

/-! ### Chunking into GHASH blocks -/

lemma toBlocksAux_length : ∀ (f : ℕ) (bs : List ℕ), bs.length ≤ f →
    (toBlocksAux f bs).length = (bs.length + 15) / 16 := by
  intro f
  induction f with
  | zero =>
    intro bs h
    have hb : bs = [] := List.length_eq_zero.mp (by omega)
    subst hb
    rfl
  | succ f ih =>
    intro bs h
    cases bs with
    | nil => rfl
    | cons b bs =>
      have h' : bs.length + 1 ≤ f + 1 := by simpa using h
      simp only [toBlocksAux, List.length_cons]
      have hd : ((b :: bs).drop 16).length = bs.length + 1 - 16 := by
        simp [List.length_drop]
      rw [ih _ (by rw [hd]; omega), hd]
      omega

lemma toBlocks_length (bs : List ℕ) : (toBlocks bs).length = (bs.length + 15) / 16 :=
  toBlocksAux_length _ _ le_rfl

/-! ### Single-byte tampering at the block level -/

lemma high_add_low_xor {a x d n : ℕ} (hx : x < 2 ^ n) (hd : d < 2 ^ n) :
    (2 ^ n * a + x) ^^^ d = 2 ^ n * a + (x ^^^ d) := by
  apply Nat.eq_of_testBit_eq
  intro j
  have hxd : x ^^^ d < 2 ^ n := Nat.xor_lt_two_pow hx hd
  simp only [Nat.testBit_xor, Nat.testBit_mul_pow_two_add _ hx j,
    Nat.testBit_mul_pow_two_add _ hxd j]
  by_cases hj : j < n
  · simp [hj]
  · have hdj : d.testBit j = false :=
      Nat.testBit_lt_two_pow
        (lt_of_lt_of_le hd (Nat.pow_le_pow_right (by norm_num) (by omega)))
    simp [hj, hdj]

lemma high_xor_add_low {a m x n : ℕ} (hx : x < 2 ^ n) :
    (2 ^ n * a + x) ^^^ (m <<< n) = 2 ^ n * (a ^^^ m) + x := by
  apply Nat.eq_of_testBit_eq
  intro j
  simp only [Nat.testBit_xor, Nat.testBit_mul_pow_two_add _ hx j,
    Nat.testBit_shiftLeft]
  by_cases hj : j < n
  · simp [hj, Nat.not_le.mpr hj]
  · simp [hj, Nat.not_lt.mp hj]

lemma bytesToBlockBE_set : ∀ (l : List ℕ) (i m : ℕ), (∀ b ∈ l, b < 256) →
    i < l.length → m < 256 →
    bytesToBlockBE (l.set i (l.getD i 0 ^^^ m))
      = bytesToBlockBE l ^^^ (m <<< (8 * (l.length - 1 - i))) := by
  intro l
  induction l with
  | nil => intro i m _ hi _; simp at hi
  | cons b bs ih =>
    intro i m hb hi hm
    have hX : bytesToBlockBE bs < 2 ^ (8 * bs.length) := by
      have h256 : (256 : ℕ) ^ bs.length = 2 ^ (8 * bs.length) := by
        rw [show (256 : ℕ) = 2 ^ 8 from rfl, ← pow_mul]
      rw [← h256]
      exact bytesToBlockBE_lt fun y hy => hb y (by simp [hy])
    cases i with
    | zero =>
      simp only [List.getD_cons_zero, List.set_cons_zero, List.length_cons]
      rw [bytesToBlockBE_cons, bytesToBlockBE_cons]
      have h256 : (256 : ℕ) ^ bs.length = 2 ^ (8 * bs.length) := by
        rw [show (256 : ℕ) = 2 ^ 8 from rfl, ← pow_mul]
      rw [show bs.length + 1 - 1 - 0 = bs.length from by omega, h256,
        mul_comm (b ^^^ m) _, mul_comm b _]
      exact (high_xor_add_low hX).symm
    | succ i =>
      have hi' : i < bs.length := by simpa using hi
      simp only [List.getD_cons_succ, List.set_cons_succ, List.length_cons]
      rw [bytesToBlockBE_cons, List.length_set,
        ih i m (fun y hy => hb y (by simp [hy])) hi' hm, bytesToBlockBE_cons]
      have h256 : (256 : ℕ) ^ bs.length = 2 ^ (8 * bs.length) := by
        rw [show (256 : ℕ) = 2 ^ 8 from rfl, ← pow_mul]
      have hD : m <<< (8 * (bs.length - 1 - i)) < 2 ^ (8 * bs.length) := by
        rw [Nat.shiftLeft_eq]
        calc m * 2 ^ (8 * (bs.length - 1 - i))
            < 256 * 2 ^ (8 * (bs.length - 1 - i)) :=
              (Nat.mul_lt_mul_right (Nat.pos_pow_of_pos _ (by norm_num))).mpr hm
          _ = 2 ^ (8 * (bs.length - 1 - i) + 8) := by
              rw [pow_add]; ring
          _ ≤ 2 ^ (8 * bs.length) :=
              Nat.pow_le_pow_right (by norm_num) (by omega)
      rw [show bs.length + 1 - 1 - (i + 1) = bs.length - 1 - i from by omega, h256,
        mul_comm b _]
      exact (high_add_low_xor hX hD).symm

lemma padTo16_length {bs : List ℕ} (h : bs.length ≤ 16) : (padTo16 bs).length = 16 := by
  simp [padTo16]
  omega

lemma padTo16_lt {bs : List ℕ} (h : ∀ b ∈ bs, b < 256) : ∀ b ∈ padTo16 bs, b < 256 := by
  intro b hb
  rcases List.mem_append.mp hb with hb | hb
  · exact h b hb
  · rw [List.eq_of_mem_replicate hb]
    norm_num

lemma padTo16_set {bs : List ℕ} {i : ℕ} (v : ℕ) (hi : i < bs.length) :
    padTo16 (bs.set i v) = (padTo16 bs).set i v := by
  unfold padTo16
  rw [List.length_set, List.set_append_left _ _ hi]

lemma padTo16_getD {bs : List ℕ} {i : ℕ} (hi : i < bs.length) :
    (padTo16 bs).getD i 0 = bs.getD i 0 := by
  unfold padTo16
  simp only [List.getD_eq_getElem?_getD]
  rw [List.getElem?_append_left hi]

lemma getD_take16 {l : List ℕ} {i : ℕ} (hi : i < 16) :
    (l.take 16).getD i 0 = l.getD i 0 := by
  simp only [List.getD_eq_getElem?_getD]
  rw [List.getElem?_take_of_lt hi]

lemma getD_drop16 (l : List ℕ) (k : ℕ) :
    (l.drop 16).getD k 0 = l.getD (16 + k) 0 := by
  simp only [List.getD_eq_getElem?_getD]
  rw [List.getElem?_drop]

lemma toBlocksAux_cons (f : ℕ) (l : List ℕ) (hl : l ≠ []) :
    toBlocksAux (f + 1) l
      = bytesToBlockBE (padTo16 (l.take 16)) :: toBlocksAux f (l.drop 16) := by
  cases l with
  | nil => exact absurd rfl hl
  | cons b bs => rfl

lemma toBlocksAux_set : ∀ (f : ℕ) (bs : List ℕ), bs.length ≤ f →
    ∀ i m : ℕ, i < bs.length → m < 256 → (∀ b ∈ bs, b < 256) →
    toBlocksAux f (bs.set i (bs.getD i 0 ^^^ m))
      = (toBlocksAux f bs).set (i / 16)
          ((toBlocksAux f bs).getD (i / 16) 0 ^^^ tamperDelta i m) := by
  intro f
  induction f with
  | zero => intro bs h i m hi _ _; omega
  | succ f ih =>
    intro bs h i m hi hm hbytes
    have hne : bs ≠ [] := by
      intro hb; rw [hb] at hi; simp at hi
    have hne' : bs.set i (bs.getD i 0 ^^^ m) ≠ [] := by
      intro hb
      have hlen := congrArg List.length hb
      rw [List.length_set] at hlen
      simp only [List.length_nil] at hlen
      omega
    rw [toBlocksAux_cons f _ hne', toBlocksAux_cons f _ hne]
    by_cases h16 : i < 16
    · -- the modified byte lies in the first chunk
      have hdiv : i / 16 = 0 := Nat.div_eq_of_lt h16
      have htk : i < (bs.take 16).length := by
        rw [List.length_take]; omega
      rw [hdiv, List.set_cons_zero, List.getD_cons_zero]
      congr 1
      · rw [List.set_take, padTo16_set _ htk,
          show bs.getD i 0 = (padTo16 (bs.take 16)).getD i 0 from by
            rw [padTo16_getD htk, getD_take16 h16],
          bytesToBlockBE_set _ i m (padTo16_lt fun y hy => hbytes y (List.mem_of_mem_take hy))
            (by rw [padTo16_length (by rw [List.length_take]; omega)]; omega) hm,
          padTo16_length (by rw [List.length_take]; omega)]
        rw [tamperDelta, Nat.mod_eq_of_lt h16]
      · rw [List.drop_set, if_pos h16]
    · -- the modified byte lies in a later chunk
      push_neg at h16
      have hdiv : i / 16 = (i - 16) / 16 + 1 := by omega
      have hdl : (bs.drop 16).length = bs.length - 16 := by simp
      rw [List.drop_set, if_neg (by omega)]
      have hgd : bs.getD i 0 = (bs.drop 16).getD (i - 16) 0 := by
        rw [getD_drop16, show 16 + (i - 16) = i from by omega]
      rw [hgd, ih (bs.drop 16) (by rw [hdl]; omega) (i - 16) m (by omega) hm
        (fun y hy => hbytes y (List.mem_of_mem_drop hy))]
      have hΔ : tamperDelta (i - 16) m = tamperDelta i m := by
        unfold tamperDelta
        congr 2
        omega
      rw [hΔ, hdiv, List.set_cons_succ, List.getD_cons_succ]
      · rw [List.set_take, List.set_eq_of_length_le (by rw [List.length_take]; omega)]

lemma toBlocks_set (bs : List ℕ) (i m : ℕ) (hi : i < bs.length) (hm : m < 256)
    (hbytes : ∀ b ∈ bs, b < 256) :
    toBlocks (bs.set i (bs.getD i 0 ^^^ m))
      = (toBlocks bs).set (i / 16)
          ((toBlocks bs).getD (i / 16) 0 ^^^ tamperDelta i m) := by
  unfold toBlocks
  rw [List.length_set]
  exact toBlocksAux_set _ bs le_rfl i m hi hm hbytes

/-! ### AES-GCM: round trip and tamper detection -/

lemma gmulIter_lt {H : ℕ} (hH : H < 2 ^ 128) :
    ∀ k {d : ℕ}, d < 2 ^ 128 → gmulIter H d k < 2 ^ 128 := by
  intro k
  induction k with
  | zero => intro d hd; exact hd
  | succ k ih => intro d _; exact ih (gmul_lt _ hH)

lemma xor_right_cancel {a b c : ℕ} (h : a ^^^ c = b ^^^ c) : a = b := by
  have h2 := congrArg (· ^^^ c) h
  simpa [Nat.xor_assoc, Nat.xor_self, Nat.xor_zero] using h2

lemma getD_append_left {l1 l2 : List ℕ} {i : ℕ} (h : i < l1.length) :
    (l1 ++ l2).getD i 0 = l1.getD i 0 := by
  simp only [List.getD_eq_getElem?_getD]
  rw [List.getElem?_append_left h]

lemma getD_append_right {l1 l2 : List ℕ} {i : ℕ} (h : l1.length ≤ i) :
    (l1 ++ l2).getD i 0 = l2.getD (i - l1.length) 0 := by
  simp only [List.getD_eq_getElem?_getD]
  rw [List.getElem?_append_right h]

lemma set_getD_xor_ne {l : List ℕ} {j m : ℕ} (hj : j < l.length) (hm : m ≠ 0) :
    l.set j (l.getD j 0 ^^^ m) ≠ l := by
  intro he
  have h1 : (l.set j (l.getD j 0 ^^^ m))[j]? = l[j]? :=
    congrArg (fun t : List ℕ => t[j]?) he
  rw [List.getElem?_set_self hj, List.getElem?_eq_getElem hj] at h1
  rw [List.getD_eq_getElem _ _ hj] at h1
  exact xor_ne_of_ne_zero hm (Option.some.inj h1)

lemma flipByteAt_length (bs : List ℕ) (i m : ℕ) :
    (flipByteAt bs i m).length = bs.length := List.length_set ..

lemma flipByteAt_lt {bs : List ℕ} (i : ℕ) {m : ℕ} (hb : ∀ b ∈ bs, b < 256)
    (hm : m < 256) : ∀ b ∈ flipByteAt bs i m, b < 256 := by
  intro b hbmem
  rcases List.mem_or_eq_of_mem_set hbmem with h | h
  · exact hb b h
  · subst h
    have h8 : (256 : ℕ) = 2 ^ 8 := rfl
    rw [h8]
    refine Nat.xor_lt_two_pow ?_ hm
    by_cases hi : i < bs.length
    · rw [List.getD_eq_getElem _ _ hi]
      exact hb _ (List.getElem_mem hi)
    · have hnone : bs[i]? = none := List.getElem?_eq_none (by omega)
      have hz : bs.getD i 0 = 0 := by
        simp [List.getD_eq_getElem?_getD, hnone]
      rw [hz]
      norm_num

lemma aesgcmEncrypt_length (E : ℕ → ℕ) (nonce t : List ℕ) :
    (aesgcmEncrypt E nonce t).length = t.length + 16 := by
  unfold aesgcmEncrypt
  rw [List.length_append, ctrCrypt_length, gcmTag, blockToBytes_length]

lemma aesgcmEncrypt_lt (E : ℕ → ℕ) (nonce : List ℕ) {t : List ℕ}
    (ht : ∀ b ∈ t, b < 256) : ∀ b ∈ aesgcmEncrypt E nonce t, b < 256 := by
  intro b hb
  unfold aesgcmEncrypt at hb
  rcases List.mem_append.mp hb with hb | hb
  · exact ctrCrypt_lt _ _ _ ht b hb
  · exact blockToBytes_lt _ b hb

/-- AES-GCM round trip: decrypting an `encrypt_biometric` blob recovers the
plaintext exactly (for any block cipher `E` and 12-byte nonce). -/
theorem gcm_roundtrip (E : ℕ → ℕ) (nonce t : List ℕ) (hn : nonce.length = 12)
    (hnb : ∀ b ∈ nonce, b < 256) (ht : ∀ b ∈ t, b < 256) :
    decrypt_biometric E (encrypt_biometric E nonce t) = some t := by
  unfold encrypt_biometric decrypt_biometric
  rw [b64decode_b64encode _ (by
    intro b hb
    rcases List.mem_append.mp hb with hb | hb
    · exact hnb b hb
    · exact aesgcmEncrypt_lt E nonce ht b hb)]
  show aesgcmDecrypt E ((nonce ++ aesgcmEncrypt E nonce t).take 12)
    ((nonce ++ aesgcmEncrypt E nonce t).drop 12) = some t
  rw [List.take_left' hn, List.drop_left' hn]
  show aesgcmDecrypt E nonce (ctrCrypt E (gcmJ0 nonce) t
    ++ gcmTag E (gcmJ0 nonce) (ctrCrypt E (gcmJ0 nonce) t)) = some t
  unfold aesgcmDecrypt
  have hctlen : (ctrCrypt E (gcmJ0 nonce) t).length = t.length :=
    ctrCrypt_length E _ t
  have hlen : (ctrCrypt E (gcmJ0 nonce) t
      ++ gcmTag E (gcmJ0 nonce) (ctrCrypt E (gcmJ0 nonce) t)).length
      = t.length + 16 := by
    rw [List.length_append, hctlen, gcmTag, blockToBytes_length]
  rw [if_neg (by omega)]
  have h1 : (ctrCrypt E (gcmJ0 nonce) t
      ++ gcmTag E (gcmJ0 nonce) (ctrCrypt E (gcmJ0 nonce) t)).length - 16
      = (ctrCrypt E (gcmJ0 nonce) t).length := by omega
  rw [h1, List.take_left, List.drop_left, if_pos rfl, ctrCrypt_ctrCrypt]

/-- AES-GCM tamper detection: flipping any single byte of the binary
ciphertext-plus-tag region makes decryption fail, provided the
corresponding GHASH difference `Δ•H^k` is nonzero (a fact of GF(2^128):
the field has no zero divisors, so it holds whenever `H = E(0) ≠ 0`). -/
theorem gcm_tamper (E : ℕ → ℕ) (hE : ∀ b, E b < 2 ^ 128) (nonce t : List ℕ)
    (i m : ℕ) (hn : nonce.length = 12) (hnb : ∀ b ∈ nonce, b < 256)
    (ht : ∀ b ∈ t, b < 256) (hm : m ≠ 0) (hm256 : m < 256)
    (hi : i < t.length + 16)
    (hnz : i < t.length →
      gmulIter (E 0) (gmul (tamperDelta i m) (E 0))
        ((t.length + 15) / 16 - i / 16) ≠ 0) :
    decrypt_biometric E
      (b64encode (nonce ++ flipByteAt (aesgcmEncrypt E nonce t) i m)) = none := by
  unfold decrypt_biometric
  rw [b64decode_b64encode _ (by
    intro b hb
    rcases List.mem_append.mp hb with hb | hb
    · exact hnb b hb
    · exact flipByteAt_lt i (aesgcmEncrypt_lt E nonce ht) hm256 b hb)]
  show aesgcmDecrypt E ((nonce ++ flipByteAt (aesgcmEncrypt E nonce t) i m).take 12)
    ((nonce ++ flipByteAt (aesgcmEncrypt E nonce t) i m).drop 12) = none
  rw [List.take_left' hn, List.drop_left' hn]
  set j0 := gcmJ0 nonce with hj0
  set ct := ctrCrypt E j0 t with hctdef
  set tg := gcmTag E j0 ct with htgdef
  have henc : aesgcmEncrypt E nonce t = ct ++ tg := rfl
  have hctlen : ct.length = t.length := ctrCrypt_length E _ t
  have htglen : tg.length = 16 := blockToBytes_length _
  have hctbytes : ∀ b ∈ ct, b < 256 := ctrCrypt_lt E _ t ht
  rw [henc]
  unfold aesgcmDecrypt
  rw [flipByteAt_length, List.length_append, hctlen, htglen]
  rw [if_neg (by omega)]
  have hdl : t.length + 16 - 16 = ct.length := by omega
  rw [hdl]
  by_cases hcase : i < ct.length
  · -- flip inside the ciphertext region
    have hflip : flipByteAt (ct ++ tg) i m
        = ct.set i (ct.getD i 0 ^^^ m) ++ tg := by
      unfold flipByteAt
      rw [getD_append_left hcase, List.set_append_left _ _ hcase]
    rw [hflip, List.take_left' (by rw [List.length_set]),
      List.drop_left' (by rw [List.length_set])]
    rw [if_neg]
    intro heq
    -- the recomputed tag over the tampered ciphertext equals the stored tag
    have hct'len : (ct.set i (ct.getD i 0 ^^^ m)).length = ct.length :=
      List.length_set ..
    have hcb : (toBlocks ct).length = (ct.length + 15) / 16 := toBlocks_length ct
    have hjlt : i / 16 < (toBlocks ct).length := by rw [hcb]; omega
    have hblocks : toBlocks (ct.set i (ct.getD i 0 ^^^ m))
        = (toBlocks ct).set (i / 16)
            ((toBlocks ct).getD (i / 16) 0 ^^^ tamperDelta i m) :=
      toBlocks_set ct i m hcase hm256 hctbytes
    have hall : toBlocks (ct.set i (ct.getD i 0 ^^^ m)) ++ [8 * ct.length]
        = (toBlocks ct ++ [8 * ct.length]).set (i / 16)
            ((toBlocks ct ++ [8 * ct.length]).getD (i / 16) 0 ^^^ tamperDelta i m) := by
      rw [hblocks, getD_append_left hjlt, List.set_append_left _ _ hjlt]
    have hghash : ghash (E 0) (toBlocks (ct.set i (ct.getD i 0 ^^^ m)) ++ [8 * ct.length])
        = ghash (E 0) (toBlocks ct ++ [8 * ct.length])
            ^^^ gmulIter (E 0) (gmul (tamperDelta i m) (E 0))
              ((toBlocks ct ++ [8 * ct.length]).length - i / 16 - 1) := by
      rw [hall]
      exact ghash_set (E 0) (tamperDelta i m) _ _ (by rw [List.length_append]; omega)
    have hcount : (toBlocks ct ++ [8 * ct.length]).length - i / 16 - 1
        = (t.length + 15) / 16 - i / 16 := by
      rw [List.length_append, hcb, hctlen]
      simp only [List.length_cons, List.length_nil]
      have : i / 16 < (t.length + 15) / 16 := by rw [← hctlen]; rw [hcb] at hjlt; omega
      omega
    unfold gcmTag at heq
    rw [hct'len, hghash, hcount] at heq
    have hg : ghash (E 0) (toBlocks ct ++ [8 * ct.length]) < 2 ^ 128 :=
      ghash_lt (hE 0) _
    have hD : gmulIter (E 0) (gmul (tamperDelta i m) (E 0))
        ((t.length + 15) / 16 - i / 16) < 2 ^ 128 :=
      gmulIter_lt (hE 0) _ (gmul_lt _ (hE 0))
    have heqblocks := blockToBytes_injective
      (Nat.xor_lt_two_pow (Nat.xor_lt_two_pow hg hD) (hE j0))
      (Nat.xor_lt_two_pow hg (hE j0)) heq
    rw [xor_right_comm] at heqblocks
    have hzero := xor_left_eq_zero heqblocks
    exact hnz (by omega) hzero
  · -- flip inside the tag region
    have hge : ct.length ≤ i := by omega
    have hjt : i - ct.length < tg.length := by omega
    have hflip : flipByteAt (ct ++ tg) i m
        = ct ++ tg.set (i - ct.length) (tg.getD (i - ct.length) 0 ^^^ m) := by
      unfold flipByteAt
      rw [getD_append_right hge, List.set_append_right _ _ hge]
    rw [hflip, List.take_left, List.drop_left]
    rw [if_neg]
    intro heq
    exact set_getD_xor_ne hjt hm heq.symm

/-- Witness for `c8_roundtrip_normalized` at the concrete vector `[2]`. -/
theorem c8_roundtrip_normalized_witness :
    ∃ w, dequantize_embedding (quantize_embedding [(2 : ℚ)]) ([(2 : ℚ)].length) = some w ∧
      w.length = [(2 : ℚ)].length ∧
      ∀ i, i < [(2 : ℚ)].length →
        |w.getD i 0 - [(2 : ℚ)].getD i 0 / (maxAbs [(2 : ℚ)] + epsQ)| < 1 / 127 :=
  c8_roundtrip_normalized [(2 : ℚ)] ⟨2, List.mem_singleton.mpr rfl, by norm_num⟩

/-- C7: for every byte string `t`, `decrypt_biometric (encrypt_biometric t)`
returns `t` exactly; and flipping any single byte of the stored binary
ciphertext portion after the 12-byte nonce (covering both the ciphertext
and the appended GCM tag) makes `decrypt_biometric` fail with a tag
mismatch rather than return any plaintext.  `E` is the AES-256 block
cipher keyed with the process key.  For flips inside the ciphertext
region, the hypothesis `hnz` states that the induced GHASH difference
`Δ • H^k` is nonzero — the GF(2^128) no-zero-divisor fact, which holds
whenever `H = E 0 ≠ 0` because GF(2^128) is a field; for flips inside the
tag region no such hypothesis is needed. -/
theorem c7_encrypt_decrypt_roundtrip_and_tamper (E : ℕ → ℕ)
    (hE : ∀ b, E b < 2 ^ 128) (nonce t : List ℕ) (i m : ℕ)
    (hn : nonce.length = 12) (hnb : ∀ b ∈ nonce, b < 256)
    (ht : ∀ b ∈ t, b < 256) (hm : m ≠ 0) (hm256 : m < 256)
    (hi : i < t.length + 16)
    (hnz : i < t.length →
      gmulIter (E 0) (gmul (tamperDelta i m) (E 0))
        ((t.length + 15) / 16 - i / 16) ≠ 0) :
    decrypt_biometric E (encrypt_biometric E nonce t) = some t ∧
    decrypt_biometric E
      (b64encode (nonce ++ flipByteAt (aesgcmEncrypt E nonce t) i m)) = none :=
  ⟨gcm_roundtrip E nonce t hn hnb ht,
   gcm_tamper E hE nonce t i m hn hnb ht hm hm256 hi hnz⟩

/-- Witness for `c7_encrypt_decrypt_roundtrip_and_tamper`: a two-byte
template, the zero block cipher, and a flip inside the tag region. -/
theorem c7_encrypt_decrypt_roundtrip_and_tamper_witness :
    decrypt_biometric (fun _ => 0)
      (encrypt_biometric (fun _ => 0) [0, 0, 0, 0, 0, 0, 0, 0, 0, 0, 0, 0] [1, 2])
      = some [1, 2] ∧
    decrypt_biometric (fun _ => 0)
      (b64encode ([0, 0, 0, 0, 0, 0, 0, 0, 0, 0, 0, 0] ++
        flipByteAt (aesgcmEncrypt (fun _ => 0)
          [0, 0, 0, 0, 0, 0, 0, 0, 0, 0, 0, 0] [1, 2]) 5 1)) = none :=
  c7_encrypt_decrypt_roundtrip_and_tamper (fun _ => 0) (fun _ => by norm_num)
    [0, 0, 0, 0, 0, 0, 0, 0, 0, 0, 0, 0] [1, 2] 5 1 rfl (by decide) (by decide)
    (by decide) (by decide) (by decide) (fun h => absurd h (by decide))

/-! ### Cosine similarity and comparison (C9, C10) -/

lemma cosineSimilarity_nonneg (a b : List ℚ) : 0 ≤ cosineSimilarity a b := by
  unfold cosineSimilarity
  split
  · exact le_refl 0
  · split
    · exact le_refl 0
    · exact le_max_left 0 _

lemma cosineSimilarity_le_one (a b : List ℚ) : cosineSimilarity a b ≤ 1 := by
  unfold cosineSimilarity
  split
  · norm_num
  · split
    · norm_num
    · exact max_le (by norm_num) (min_le_left 1 _)

lemma cosineSimilarity_eq_zero (a b : List ℚ)
    (h : a.length ≠ b.length ∨ sumSq a = 0 ∨ sumSq b = 0) :
    cosineSimilarity a b = 0 := by
  unfold cosineSimilarity
  rcases h with h | h | h
  · rw [if_pos h]
  · split
    · rfl
    · rw [if_pos]
      left
      rw [h]
      push_cast
      exact Real.sqrt_zero
  · split
    · rfl
    · rw [if_pos]
      right
      rw [h]
      push_cast
      exact Real.sqrt_zero

lemma compare_embeddings_decrypt_none {E : ℕ → ℕ} {θ : ℝ} {live : List ℚ}
    {enc : List ℕ} (h : decrypt_biometric E enc = none) :
    compare_embeddings E θ live enc = ⟨False, 0⟩ := by
  unfold compare_embeddings
  simp only [h]

lemma compare_embeddings_badshape {E : ℕ → ℕ} {θ : ℝ} {live : List ℚ}
    {enc bytes : List ℕ} (h : decrypt_biometric E enc = some bytes)
    (h2 : dequantize_embedding bytes live.length = none) :
    compare_embeddings E θ live enc = ⟨False, 0⟩ := by
  unfold compare_embeddings
  simp only [h, h2]

lemma compare_embeddings_ok {E : ℕ → ℕ} {θ : ℝ} {live : List ℚ}
    {enc bytes : List ℕ} {stored : List ℚ}
    (h : decrypt_biometric E enc = some bytes)
    (h2 : dequantize_embedding bytes live.length = some stored) :
    compare_embeddings E θ live enc
      = ⟨cosineSimilarity live stored ≥ θ, cosineSimilarity live stored⟩ := by
  unfold compare_embeddings
  simp only [h, h2]

lemma logAttempt_voters (s : SysState) (vid : String) (o : AuthOutcome)
    (r : Option String) (sc : Option ℚ) :
    (logAttempt s vid o r sc).voters = s.voters := rfl

lemma updVoter_voters_self (s : SysState) (vid : String) (f : VoterRec → VoterRec) :
    (updVoter s vid f).voters vid = (s.voters vid).map f := by
  simp [updVoter]

lemma failureCount_logAttempt_failure (s : SysState) (vid : String)
    (r : Option String) (sc : Option ℚ) :
    failureCount (logAttempt s vid .failure r sc) = failureCount s + 1 := by
  unfold failureCount logAttempt
  simp

/-- C9 counterexample: with threshold 0 (permitted by the configuration
bound `ge=0.0` on `FACE_THRESHOLD`) and a zero-norm live vector, the
comparison completes with score 0 and `matched = (0 ≥ 0)`, which holds —
contradicting the claim that zero-norm vectors give `matched = false` for
every threshold in `[0, 1]`. -/
theorem c9_zero_threshold_counterexample :
    sumSq [(0 : ℚ)] = 0 ∧
    (compare_embeddings (fun _ => 0) 0 [(0 : ℚ)]
      (encrypt_biometric (fun _ => 0)
        [0, 0, 0, 0, 0, 0, 0, 0, 0, 0, 0, 0] [0])).score = 0 ∧
    (compare_embeddings (fun _ => 0) 0 [(0 : ℚ)]
      (encrypt_biometric (fun _ => 0)
        [0, 0, 0, 0, 0, 0, 0, 0, 0, 0, 0, 0] [0])).matched := by
  have hdec : decrypt_biometric (fun _ => 0)
      (encrypt_biometric (fun _ => 0) [0, 0, 0, 0, 0, 0, 0, 0, 0, 0, 0, 0] [0])
      = some [0] :=
    gcm_roundtrip _ _ _ rfl (by decide) (by decide)
  have hdeq : dequantize_embedding [0] ([(0 : ℚ)].length) = some [(0 : ℚ)] := by
    norm_num [dequantize_embedding, byteToInt8]
  have hss : sumSq [(0 : ℚ)] = 0 := by norm_num [sumSq, dotQ]
  have hcos : cosineSimilarity [(0 : ℚ)] [(0 : ℚ)] = 0 :=
    cosineSimilarity_eq_zero _ _ (Or.inr (Or.inl hss))
  have hcomp : compare_embeddings (fun _ => 0) 0 [(0 : ℚ)]
      (encrypt_biometric (fun _ => 0) [0, 0, 0, 0, 0, 0, 0, 0, 0, 0, 0, 0] [0])
      = ⟨cosineSimilarity [(0 : ℚ)] [(0 : ℚ)] ≥ 0,
         cosineSimilarity [(0 : ℚ)] [(0 : ℚ)]⟩ :=
    compare_embeddings_ok hdec hdeq
  refine ⟨hss, ?_, ?_⟩
  · rw [hcomp, hcos]
  · rw [hcomp]
    show cosineSimilarity [(0 : ℚ)] [(0 : ℚ)] ≥ 0
    rw [hcos]

/-- C9 (amended): the comparison score always lies in `[0, 1]`;
`matched ↔ score ≥ threshold` for every *positive* threshold (for the
failure paths `matched` is `False` while the score is 0, so at threshold
exactly 0 the equivalence — and the claim's "`matched = false` on
zero-norm input for every threshold in `[0, 1]`" — fails, see the
counterexample); shape mismatch or a zero-norm vector yields similarity
0 and no match at any positive threshold. -/
theorem c9_compare_score_and_matched (E : ℕ → ℕ) (θ : ℝ) (live : List ℚ)
    (enc : List ℕ) (hθ0 : 0 < θ) (_hθ1 : θ ≤ 1) :
    (0 ≤ (compare_embeddings E θ live enc).score ∧
      (compare_embeddings E θ live enc).score ≤ 1) ∧
    ((compare_embeddings E θ live enc).matched ↔
      (compare_embeddings E θ live enc).score ≥ θ) ∧
    (∀ a b : List ℚ, a.length ≠ b.length ∨ sumSq a = 0 ∨ sumSq b = 0 →
      cosineSimilarity a b = 0 ∧ ¬ cosineSimilarity a b ≥ θ) := by
  have hcases : compare_embeddings E θ live enc = ⟨False, 0⟩ ∨
      ∃ stored, compare_embeddings E θ live enc
        = ⟨cosineSimilarity live stored ≥ θ, cosineSimilarity live stored⟩ := by
    cases hdec : decrypt_biometric E enc with
    | none => exact Or.inl (compare_embeddings_decrypt_none hdec)
    | some bytes =>
      cases hdeq : dequantize_embedding bytes live.length with
      | none => exact Or.inl (compare_embeddings_badshape hdec hdeq)
      | some stored => exact Or.inr ⟨stored, compare_embeddings_ok hdec hdeq⟩
  refine ⟨?_, ?_, ?_⟩
  · rcases hcases with h | ⟨stored, h⟩ <;> rw [h]
    · exact ⟨le_refl 0, by norm_num⟩
    · exact ⟨cosineSimilarity_nonneg _ _, cosineSimilarity_le_one _ _⟩
  · rcases hcases with h | ⟨stored, h⟩
    · rw [h]
      show False ↔ (0 : ℝ) ≥ θ
      constructor
      · exact False.elim
      · intro hge; linarith
    · rw [h]
  · intro a b h
    refine ⟨cosineSimilarity_eq_zero a b h, ?_⟩
    rw [cosineSimilarity_eq_zero a b h]
    intro hge
    linarith

/-- Witness for `c9_compare_score_and_matched` at a concrete threshold and
empty stored blob (decryption fails). -/
theorem c9_compare_score_and_matched_witness :
    (0 ≤ (compare_embeddings (fun _ => 0) (1 / 2) [] []).score ∧
      (compare_embeddings (fun _ => 0) (1 / 2) [] []).score ≤ 1) ∧
    ((compare_embeddings (fun _ => 0) (1 / 2) [] []).matched ↔
      (compare_embeddings (fun _ => 0) (1 / 2) [] []).score ≥ 1 / 2) ∧
    (∀ a b : List ℚ, a.length ≠ b.length ∨ sumSq a = 0 ∨ sumSq b = 0 →
      cosineSimilarity a b = 0 ∧ ¬ cosineSimilarity a b ≥ (1 / 2 : ℝ)) :=
  c9_compare_score_and_matched (fun _ => 0) (1 / 2) [] []
    (by norm_num) (by norm_num)

/-- C10: `compare_embeddings` is total — a failed decryption (for example
a corrupted or tampered stored ciphertext) or a failed
dequantization/reshape is caught and reported as
`(matched = False, score = 0)`, not raised; consequently, through
`authenticate_with_face`, a corrupted stored template surfaces as an
ordinary biometric mismatch that consumes one unit of the voter's
failed-attempt budget rather than as a distinct storage-integrity
error. -/
theorem c10_corrupt_template_is_ordinary_mismatch :
    (∀ (E : ℕ → ℕ) (θ : ℝ) (live : List ℚ) (enc : List ℕ),
      decrypt_biometric E enc = none →
        compare_embeddings E θ live enc = ⟨False, 0⟩) ∧
    (∀ (E : ℕ → ℕ) (θ : ℝ) (live : List ℚ) (enc bytes : List ℕ),
      decrypt_biometric E enc = some bytes → bytes.length ≠ live.length →
        compare_embeddings E θ live enc = ⟨False, 0⟩) ∧
    (∀ (env : Env) (vid sid : String) (now : ℕ) (s : SysState)
        (voter : VoterRec) (score : ℚ),
      s.voters vid = some voter → voter.hasVoted = false →
      voter.lockedOut = false → voter.failedAuthCount < env.maxAttempts →
      (authenticate_with_face env vid sid (some (false, score)) now s).2
          = .mismatch ((env.maxAttempts : ℤ) - ((voter.failedAuthCount + 1 : ℕ) : ℤ)) ∧
        ((authenticate_with_face env vid sid (some (false, score)) now s).1.voters
            vid).map (·.failedAuthCount) = some (voter.failedAuthCount + 1) ∧
        failureCount (authenticate_with_face env vid sid (some (false, score)) now s).1
          = failureCount s + 1) := by
  refine ⟨?_, ?_, ?_⟩
  · intro E θ live enc hdec
    exact compare_embeddings_decrypt_none hdec
  · intro E θ live enc bytes hdec hlen
    refine compare_embeddings_badshape hdec ?_
    unfold dequantize_embedding
    rw [if_neg hlen]
  · intro env vid sid now s voter score hv hhv hlo hcount
    have hauth : authenticate_with_face env vid sid (some (false, score)) now s
        = (logAttempt (updVoter s vid fun v =>
              { v with failedAuthCount := voter.failedAuthCount + 1 })
            vid .failure (some "Face not matched") (some score),
           .mismatch ((env.maxAttempts : ℤ) - ((voter.failedAuthCount + 1 : ℕ) : ℤ))) := by
      unfold authenticate_with_face lockoutGate
      simp only [hv, hhv, hlo, Bool.false_eq_true, if_false, ite_false]
      rw [if_neg (by omega : ¬ env.maxAttempts ≤ voter.failedAuthCount)]
      simp
    rw [hauth]
    refine ⟨rfl, ?_, failureCount_logAttempt_failure _ _ _ _⟩
    rw [logAttempt_voters, updVoter_voters_self, hv]
    rfl

/-- Witness for `c10_corrupt_template_is_ordinary_mismatch`: a concrete
one-voter state with a fresh voter and a failed comparison. -/
theorem c10_corrupt_template_is_ordinary_mismatch_witness :
    compare_embeddings (fun _ => 0) (1 / 2) [] [] = ⟨False, 0⟩ ∧
    (authenticate_with_face
        { votingSecret := "vs-secret"
          jwtSecret := "admin-secret"
          maxAttempts := 3
          lockoutDurationMinutes := 30
          activeElection := some "E1"
          candidates := []
          constituencies := [] }
        "V1" "S1" (some (false, 0)) 1000
        { voters := fun x => if x = "V1" then
            some { fullName := "A"
                   constituencyId := "C1"
                   hasVoted := false
                   votedAt := none
                   voteTxHash := none
                   failedAuthCount := 0
                   lockedOut := false
                   lockoutAt := none
                   blockchainVoterId := "0xabc" } else none
          submissions := []
          usedTokens := []
          attempts := []
          chainTxs := [] }).2
      = .mismatch 2 := by
  constructor
  · exact c10_corrupt_template_is_ordinary_mismatch.1 (fun _ => 0) (1 / 2) [] [] rfl
  · have h := c10_corrupt_template_is_ordinary_mismatch.2.2
      { votingSecret := "vs-secret"
        jwtSecret := "admin-secret"
        maxAttempts := 3
        lockoutDurationMinutes := 30
        activeElection := some "E1"
        candidates := []
        constituencies := [] }
      "V1" "S1" 1000
      { voters := fun x => if x = "V1" then
          some { fullName := "A"
                 constituencyId := "C1"
                 hasVoted := false
                 votedAt := none
                 voteTxHash := none
                 failedAuthCount := 0
                 lockedOut := false
                 lockoutAt := none
                 blockchainVoterId := "0xabc" } else none
        submissions := []
        usedTokens := []
        attempts := []
        chainTxs := [] }
      { fullName := "A"
        constituencyId := "C1"
        hasVoted := false
        votedAt := none
        voteTxHash := none
        failedAuthCount := 0
        lockedOut := false
        lockoutAt := none
        blockchainVoterId := "0xabc" }
      0 (by simp) rfl rfl (by norm_num)
    simpa using h.1

/-! ### Voting-session token validation (C6) -/

/-- C6: `get_current_session` yields the validated claims only if the
token's signature verifies under the voting-session secret (a token
signed with the admin `JWT_SECRET` is rejected even if otherwise
well-formed, the two secrets being distinct), the token is unexpired, its
type claim equals `"voting_session"`, and the voter re-resolved by
external id exists with `has_voted = false` and `locked_out = false`.
Each violated condition produces the corresponding error: the three
token-level failures (bad signature / expired / wrong type) all raise the
same 401 invalid-session error, while the re-resolved voter state yields
the distinct not-found / already-voted / locked-out errors. -/
theorem c6_session_validation :
    (∀ (env : Env) (tok : Token) (now : ℕ) (s : SysState) (sd : SessionData),
      get_current_session env tok now s = .ok sd →
      tok.signedWith = env.votingSecret ∧ ¬ tok.exp < now ∧
      tok.typ = "voting_session" ∧
      ∃ v, s.voters tok.voterId = some v ∧ v.hasVoted = false ∧
        v.lockedOut = false ∧
        sd = ⟨tok.voterId, tok.electionId, tok.constituencyId, tok.sessionId⟩) ∧
    (∀ (env : Env) (tok : Token) (now : ℕ) (s : SysState),
      env.jwtSecret ≠ env.votingSecret → tok.signedWith = env.jwtSecret →
      get_current_session env tok now s = .error .invalidSession) ∧
    (∀ (env : Env) (tok : Token) (now : ℕ) (s : SysState),
      tok.exp < now →
      get_current_session env tok now s = .error .invalidSession) ∧
    (∀ (env : Env) (tok : Token) (now : ℕ) (s : SysState),
      tok.typ ≠ "voting_session" →
      get_current_session env tok now s = .error .invalidSession) ∧
    (∀ (env : Env) (tok : Token) (now : ℕ) (s : SysState),
      tok.signedWith = env.votingSecret → ¬ tok.exp < now →
      tok.typ = "voting_session" → tok.voterId ≠ "" → tok.electionId ≠ "" →
      tok.constituencyId ≠ "" → tok.sessionId ≠ "" →
      s.voters tok.voterId = none →
      get_current_session env tok now s = .error .voterNotFound) ∧
    (∀ (env : Env) (tok : Token) (now : ℕ) (s : SysState) (v : VoterRec),
      tok.signedWith = env.votingSecret → ¬ tok.exp < now →
      tok.typ = "voting_session" → tok.voterId ≠ "" → tok.electionId ≠ "" →
      tok.constituencyId ≠ "" → tok.sessionId ≠ "" →
      s.voters tok.voterId = some v → v.hasVoted = true →
      get_current_session env tok now s = .error .alreadyVoted) ∧
    (∀ (env : Env) (tok : Token) (now : ℕ) (s : SysState) (v : VoterRec),
      tok.signedWith = env.votingSecret → ¬ tok.exp < now →
      tok.typ = "voting_session" → tok.voterId ≠ "" → tok.electionId ≠ "" →
      tok.constituencyId ≠ "" → tok.sessionId ≠ "" →
      s.voters tok.voterId = some v → v.hasVoted = false → v.lockedOut = true →
      get_current_session env tok now s = .error .lockedOut) := by
  refine ⟨?_, ?_, ?_, ?_, ?_, ?_, ?_⟩
  · intro env tok now s sd h
    unfold get_current_session at h
    split_ifs at h with h1 h2 h3 h4
    cases hv : s.voters tok.voterId with
    | none => simp only [hv] at h; exact absurd h (by simp)
    | some v =>
      simp only [hv] at h
      split_ifs at h with h5 h6
      simp only [Except.ok.injEq] at h
      exact ⟨not_not.mp h1, h2, not_not.mp h3, v, rfl, by simpa using h5,
        by simpa using h6, h.symm⟩
  · intro env tok now s hne hsig
    unfold get_current_session
    rw [if_pos (by rw [hsig]; exact hne)]
  · intro env tok now s hexp
    unfold get_current_session
    by_cases h1 : tok.signedWith ≠ env.votingSecret
    · rw [if_pos h1]
    · rw [if_neg h1, if_pos hexp]
  · intro env tok now s htyp
    unfold get_current_session
    by_cases h1 : tok.signedWith ≠ env.votingSecret
    · rw [if_pos h1]
    · rw [if_neg h1]
      by_cases h2 : tok.exp < now
      · rw [if_pos h2]
      · rw [if_neg h2, if_pos htyp]
  · intro env tok now s hsig hexp htyp ha hb hc hd hvoter
    unfold get_current_session
    rw [if_neg (not_not_intro hsig), if_neg hexp, if_neg (not_not_intro htyp),
      if_neg (by simp [ha, hb, hc, hd]), hvoter]
  · intro env tok now s v hsig hexp htyp ha hb hc hd hvoter hvoted
    unfold get_current_session
    rw [if_neg (not_not_intro hsig), if_neg hexp, if_neg (not_not_intro htyp),
      if_neg (by simp [ha, hb, hc, hd]), hvoter]
    simp [hvoted]
  · intro env tok now s v hsig hexp htyp ha hb hc hd hvoter hvoted hlock
    unfold get_current_session
    rw [if_neg (not_not_intro hsig), if_neg hexp, if_neg (not_not_intro htyp),
      if_neg (by simp [ha, hb, hc, hd]), hvoter]
    simp [hvoted, hlock]

/-- Witness for `c6_session_validation`: a concrete well-formed token is
accepted, and the same token signed with the admin secret is rejected. -/
theorem c6_session_validation_witness :
    ((create_voting_session_token "vs-secret" "V1" "E1" "C1" "S1" 100).signedWith
        = "vs-secret" ∧
      ¬ (create_voting_session_token "vs-secret" "V1" "E1" "C1" "S1" 100).exp < 200 ∧
      (create_voting_session_token "vs-secret" "V1" "E1" "C1" "S1" 100).typ
        = "voting_session" ∧
      ∃ v, (fun x => if x = "V1" then
          some { fullName := "A"
                 constituencyId := "C1"
                 hasVoted := false
                 votedAt := none
                 voteTxHash := none
                 failedAuthCount := 0
                 lockedOut := false
                 lockoutAt := none
                 blockchainVoterId := "0xabc" : VoterRec } else none)
            (create_voting_session_token "vs-secret" "V1" "E1" "C1" "S1" 100).voterId
          = some v ∧
        v.hasVoted = false ∧ v.lockedOut = false ∧
        (⟨"V1", "E1", "C1", "S1"⟩ : SessionData)
          = ⟨(create_voting_session_token "vs-secret" "V1" "E1" "C1" "S1" 100).voterId,
             (create_voting_session_token "vs-secret" "V1" "E1" "C1" "S1" 100).electionId,
             (create_voting_session_token "vs-secret" "V1" "E1" "C1" "S1" 100).constituencyId,
             (create_voting_session_token "vs-secret" "V1" "E1" "C1" "S1" 100).sessionId⟩) ∧
    get_current_session
      { votingSecret := "vs-secret"
        jwtSecret := "admin-secret"
        maxAttempts := 3
        lockoutDurationMinutes := 30
        activeElection := some "E1"
        candidates := []
        constituencies := [] }
      (create_voting_session_token "admin-secret" "V1" "E1" "C1" "S1" 100) 200
      { voters := fun x => if x = "V1" then
          some { fullName := "A"
                 constituencyId := "C1"
                 hasVoted := false
                 votedAt := none
                 voteTxHash := none
                 failedAuthCount := 0
                 lockedOut := false
                 lockoutAt := none
                 blockchainVoterId := "0xabc" : VoterRec } else none
        submissions := []
        usedTokens := []
        attempts := []
        chainTxs := [] } = .error .invalidSession := by
  constructor
  · exact c6_session_validation.1
      { votingSecret := "vs-secret"
        jwtSecret := "admin-secret"
        maxAttempts := 3
        lockoutDurationMinutes := 30
        activeElection := some "E1"
        candidates := []
        constituencies := [] }
      (create_voting_session_token "vs-secret" "V1" "E1" "C1" "S1" 100) 200
      { voters := fun x => if x = "V1" then
          some { fullName := "A"
                 constituencyId := "C1"
                 hasVoted := false
                 votedAt := none
                 voteTxHash := none
                 failedAuthCount := 0
                 lockedOut := false
                 lockoutAt := none
                 blockchainVoterId := "0xabc" : VoterRec } else none
        submissions := []
        usedTokens := []
        attempts := []
        chainTxs := [] }
      ⟨"V1", "E1", "C1", "S1"⟩ rfl
  · exact c6_session_validation.2.1
      { votingSecret := "vs-secret"
        jwtSecret := "admin-secret"
        maxAttempts := 3
        lockoutDurationMinutes := 30
        activeElection := some "E1"
        candidates := []
        constituencies := [] }
      (create_voting_session_token "admin-secret" "V1" "E1" "C1" "S1" 100) 200
      _ (by decide) rfl

/-! ### Throttle and lockout (C4, C5) -/

lemma auth_mismatch_eq (env : Env) (vid sid : String) (score : ℚ) (now : ℕ)
    (s : SysState) (voter : VoterRec) (hv : s.voters vid = some voter)
    (hhv : voter.hasVoted = false) (hlo : voter.lockedOut = false)
    (hcount : voter.failedAuthCount < env.maxAttempts) :
    authenticate_with_face env vid sid (some (false, score)) now s
      = (logAttempt (updVoter s vid fun v =>
            { v with failedAuthCount := voter.failedAuthCount + 1 })
          vid .failure (some "Face not matched") (some score),
         .mismatch ((env.maxAttempts : ℤ) - ((voter.failedAuthCount + 1 : ℕ) : ℤ))) := by
  unfold authenticate_with_face lockoutGate
  simp only [hv, hhv, hlo, Bool.false_eq_true, if_false, ite_false]
  rw [if_neg (by omega : ¬ env.maxAttempts ≤ voter.failedAuthCount)]
  simp

lemma auth_relock_eq (env : Env) (vid sid : String) (bio : Option (Bool × ℚ))
    (now : ℕ) (s : SysState) (voter : VoterRec) (hv : s.voters vid = some voter)
    (hhv : voter.hasVoted = false) (hlo : voter.lockedOut = false)
    (hcount : env.maxAttempts ≤ voter.failedAuthCount) :
    authenticate_with_face env vid sid bio now s
      = (logAttempt (updVoter s vid fun v =>
            { v with lockedOut := true, lockoutAt := some now })
          vid .lockout (some "Max attempts exceeded") none,
         .maxAttempts) := by
  unfold authenticate_with_face lockoutGate
  simp only [hv, hhv, hlo, Bool.false_eq_true, if_false, ite_false]
  rw [if_pos hcount]

lemma auth_expired_lockout_eq (env : Env) (vid sid : String)
    (bio : Option (Bool × ℚ)) (now t0 : ℕ) (s : SysState) (voter : VoterRec)
    (hv : s.voters vid = some voter) (hhv : voter.hasVoted = false)
    (hlo : voter.lockedOut = true) (hla : voter.lockoutAt = some t0)
    (helapsed : t0 + env.lockoutDurationMinutes * 60 ≤ now)
    (hcount : env.maxAttempts ≤ voter.failedAuthCount) :
    authenticate_with_face env vid sid bio now s
      = (logAttempt (updVoter (updVoter s vid fun v =>
            { v with lockedOut := false, failedAuthCount := 0 }) vid fun v =>
            { v with lockedOut := true, lockoutAt := some now })
          vid .lockout (some "Max attempts exceeded") none,
         .maxAttempts) := by
  unfold authenticate_with_face lockoutGate
  simp only [hv, hhv, hlo, hla, Bool.false_eq_true, if_false, ite_false, ite_true,
    if_true]
  rw [if_neg (by omega : ¬ now < t0 + env.lockoutDurationMinutes * 60)]
  simp only [if_pos hcount]

/-- C4 (claim refuted by the code): for a locked-out voter whose lockout
duration has elapsed, `authenticate_with_face` resets the stored row
(`locked_out = FALSE, failed_auth_count = 0`) but then re-checks
`MAX_AUTH_ATTEMPTS` against the *stale* row fetched before the reset,
whose counter is still `≥ maxAttempts`.  The attempt is therefore rejected
with the max-attempts lockout error — for *every* biometric input, so the
match is never evaluated — and the voter is immediately re-locked
(`locked_out = true`, `lockout_at = now`, stored counter left at the reset
value 0), instead of proceeding as for an ACTIVE voter. -/
theorem c4_lockout_expiry_relocks_stale_row (env : Env) (vid sid : String)
    (bio : Option (Bool × ℚ)) (now t0 : ℕ) (s : SysState) (voter : VoterRec)
    (hv : s.voters vid = some voter) (hhv : voter.hasVoted = false)
    (hlo : voter.lockedOut = true) (hla : voter.lockoutAt = some t0)
    (helapsed : t0 + env.lockoutDurationMinutes * 60 ≤ now)
    (hcount : env.maxAttempts ≤ voter.failedAuthCount) :
    (authenticate_with_face env vid sid bio now s).2 = .maxAttempts ∧
    ((authenticate_with_face env vid sid bio now s).1.voters vid).map
        (·.lockedOut) = some true ∧
    ((authenticate_with_face env vid sid bio now s).1.voters vid).map
        (·.lockoutAt) = some (some now) ∧
    ((authenticate_with_face env vid sid bio now s).1.voters vid).map
        (·.failedAuthCount) = some 0 := by
  rw [auth_expired_lockout_eq env vid sid bio now t0 s voter hv hhv hlo hla
    helapsed hcount]
  refine ⟨rfl, ?_, ?_, ?_⟩ <;>
    simp [logAttempt_voters, updVoter_voters_self, updVoter, hv]

/-- Witness for `c4_lockout_expiry_relocks_stale_row`: a concrete voter
locked at time 0 with counter 3, attempting again at `now = 1800` seconds
with a perfectly matching face. -/
theorem c4_lockout_expiry_relocks_stale_row_witness :
    ((authenticate_with_face
        { votingSecret := "vs-secret"
          jwtSecret := "admin-secret"
          maxAttempts := 3
          lockoutDurationMinutes := 30
          activeElection := some "E1"
          candidates := []
          constituencies := [] }
        "V1" "S1" (some (true, 1)) 1800
        { voters := fun x => if x = "V1" then
            some { fullName := "A"
                   constituencyId := "C1"
                   hasVoted := false
                   votedAt := none
                   voteTxHash := none
                   failedAuthCount := 3
                   lockedOut := true
                   lockoutAt := some 0
                   blockchainVoterId := "0xabc" : VoterRec } else none
          submissions := []
          usedTokens := []
          attempts := []
          chainTxs := [] }).2 = .maxAttempts) ∧
    (((authenticate_with_face
        { votingSecret := "vs-secret"
          jwtSecret := "admin-secret"
          maxAttempts := 3
          lockoutDurationMinutes := 30
          activeElection := some "E1"
          candidates := []
          constituencies := [] }
        "V1" "S1" (some (true, 1)) 1800
        { voters := fun x => if x = "V1" then
            some { fullName := "A"
                   constituencyId := "C1"
                   hasVoted := false
                   votedAt := none
                   voteTxHash := none
                   failedAuthCount := 3
                   lockedOut := true
                   lockoutAt := some 0
                   blockchainVoterId := "0xabc" : VoterRec } else none
          submissions := []
          usedTokens := []
          attempts := []
          chainTxs := [] }).1.voters "V1").map (·.lockedOut) = some true) := by
  have h := c4_lockout_expiry_relocks_stale_row
    { votingSecret := "vs-secret"
      jwtSecret := "admin-secret"
      maxAttempts := 3
      lockoutDurationMinutes := 30
      activeElection := some "E1"
      candidates := []
      constituencies := [] }
    "V1" "S1" (some (true, 1)) 1800 0
    { voters := fun x => if x = "V1" then
        some { fullName := "A"
               constituencyId := "C1"
               hasVoted := false
               votedAt := none
               voteTxHash := none
               failedAuthCount := 3
               lockedOut := true
               lockoutAt := some 0
               blockchainVoterId := "0xabc" : VoterRec } else none
      submissions := []
      usedTokens := []
      attempts := []
      chainTxs := [] }
    { fullName := "A"
      constituencyId := "C1"
      hasVoted := false
      votedAt := none
      voteTxHash := none
      failedAuthCount := 3
      lockedOut := true
      lockoutAt := some 0
      blockchainVoterId := "0xabc" }
    (by simp) rfl rfl rfl (by norm_num) (by norm_num)
  exact ⟨h.1, h.2.1⟩

/-- C5 counterexample: a fresh voter with `maxAttempts = 3` fails three
consecutive biometric matches (scores 0.40, 0.50, 0.55).  Three failure
outcomes are recorded and the counter reaches 3, but after the third
failure `locked_out` is still `false`: the code increments the counter on
a failed match without setting the lockout flag, so the
`ACTIVE → LOCKED` transition does *not* happen on the third failure (it
happens at the start of the next attempt, see
`c5_lock_on_attempt_after_max`). -/
theorem c5_third_failure_not_locked :
    let env : Env :=
      { votingSecret := "vs-secret"
        jwtSecret := "admin-secret"
        maxAttempts := 3
        lockoutDurationMinutes := 30
        activeElection := some "E1"
        candidates := []
        constituencies := [] }
    let s0 : SysState :=
      { voters := fun x => if x = "V1" then
          some { fullName := "A"
                 constituencyId := "C1"
                 hasVoted := false
                 votedAt := none
                 voteTxHash := none
                 failedAuthCount := 0
                 lockedOut := false
                 lockoutAt := none
                 blockchainVoterId := "0xabc" : VoterRec } else none
        submissions := []
        usedTokens := []
        attempts := []
        chainTxs := [] }
    let s3 := execOps env s0
      [.auth "V1" "s1" (some (false, 2/5)) 1,
       .auth "V1" "s2" (some (false, 1/2)) 2,
       .auth "V1" "s3" (some (false, 11/20)) 3]
    ((s3.voters "V1").map (·.lockedOut) = some false) ∧
    ((s3.voters "V1").map (·.failedAuthCount) = some 3) ∧
    (s3.attempts.map (·.outcome)
      = [AuthOutcome.failure, AuthOutcome.failure, AuthOutcome.failure]) := by
  exact ⟨rfl, rfl, rfl⟩

/-- C5 (amended): a failed match for an active voter below the limit only
increments `failed_auth_count` and records a failure outcome — it never
sets `locked_out`, even when the increment reaches `maxAttempts`; the
`ACTIVE → LOCKED` transition (with `lockout_at` timestamp) happens at the
start of the *next* attempt, which is rejected with the max-attempts
error, records a lockout outcome, and computes no new score. -/
theorem c5_lock_on_attempt_after_max :
    (∀ (env : Env) (vid sid : String) (score : ℚ) (now : ℕ) (s : SysState)
        (voter : VoterRec),
      s.voters vid = some voter → voter.hasVoted = false →
      voter.lockedOut = false → voter.failedAuthCount < env.maxAttempts →
      (authenticate_with_face env vid sid (some (false, score)) now s).2
          = .mismatch ((env.maxAttempts : ℤ) - ((voter.failedAuthCount + 1 : ℕ) : ℤ)) ∧
        ((authenticate_with_face env vid sid (some (false, score)) now s).1.voters
            vid).map (·.lockedOut) = some false ∧
        ((authenticate_with_face env vid sid (some (false, score)) now s).1.voters
            vid).map (·.failedAuthCount) = some (voter.failedAuthCount + 1) ∧
        (authenticate_with_face env vid sid (some (false, score)) now s).1.attempts
          = s.attempts ++
            [{ voterRef := some vid
               method := "face"
               outcome := .failure
               failureReason := some "Face not matched"
               similarityScore := some score }]) ∧
    (∀ (env : Env) (vid sid : String) (bio : Option (Bool × ℚ)) (now : ℕ)
        (s : SysState) (voter : VoterRec),
      s.voters vid = some voter → voter.hasVoted = false →
      voter.lockedOut = false → env.maxAttempts ≤ voter.failedAuthCount →
      (authenticate_with_face env vid sid bio now s).2 = .maxAttempts ∧
        ((authenticate_with_face env vid sid bio now s).1.voters vid).map
            (·.lockedOut) = some true ∧
        ((authenticate_with_face env vid sid bio now s).1.voters vid).map
            (·.lockoutAt) = some (some now) ∧
        (authenticate_with_face env vid sid bio now s).1.attempts
          = s.attempts ++
            [{ voterRef := some vid
               method := "face"
               outcome := .lockout
               failureReason := some "Max attempts exceeded"
               similarityScore := none }]) := by
  constructor
  · intro env vid sid score now s voter hv hhv hlo hcount
    rw [auth_mismatch_eq env vid sid score now s voter hv hhv hlo hcount]
    refine ⟨rfl, ?_, ?_, ?_⟩ <;>
      simp [logAttempt, logAttempt_voters, updVoter_voters_self, updVoter, hv, hlo]
  · intro env vid sid bio now s voter hv hhv hlo hcount
    rw [auth_relock_eq env vid sid bio now s voter hv hhv hlo hcount]
    refine ⟨rfl, ?_, ?_, ?_⟩ <;>
      simp [logAttempt, logAttempt_voters, updVoter_voters_self, updVoter, hv]

/-- Witness for `c5_lock_on_attempt_after_max`: a concrete voter at
counter 2 failing a match, and a concrete voter at counter 3 making the
next attempt. -/
theorem c5_lock_on_attempt_after_max_witness :
    ((authenticate_with_face
        { votingSecret := "vs-secret"
          jwtSecret := "admin-secret"
          maxAttempts := 3
          lockoutDurationMinutes := 30
          activeElection := some "E1"
          candidates := []
          constituencies := [] }
        "V1" "S1" (some (false, 1/2)) 10
        { voters := fun x => if x = "V1" then
            some { fullName := "A"
                   constituencyId := "C1"
                   hasVoted := false
                   votedAt := none
                   voteTxHash := none
                   failedAuthCount := 2
                   lockedOut := false
                   lockoutAt := none
                   blockchainVoterId := "0xabc" : VoterRec } else none
          submissions := []
          usedTokens := []
          attempts := []
          chainTxs := [] }).2 = .mismatch ((3 : ℤ) - ((2 + 1 : ℕ) : ℤ))) ∧
    ((authenticate_with_face
        { votingSecret := "vs-secret"
          jwtSecret := "admin-secret"
          maxAttempts := 3
          lockoutDurationMinutes := 30
          activeElection := some "E1"
          candidates := []
          constituencies := [] }
        "V1" "S1" (some (true, 1)) 20
        { voters := fun x => if x = "V1" then
            some { fullName := "A"
                   constituencyId := "C1"
                   hasVoted := false
                   votedAt := none
                   voteTxHash := none
                   failedAuthCount := 3
                   lockedOut := false
                   lockoutAt := none
                   blockchainVoterId := "0xabc" : VoterRec } else none
          submissions := []
          usedTokens := []
          attempts := []
          chainTxs := [] }).2 = .maxAttempts) := by
  constructor
  · exact (c5_lock_on_attempt_after_max.1
      { votingSecret := "vs-secret"
        jwtSecret := "admin-secret"
        maxAttempts := 3
        lockoutDurationMinutes := 30
        activeElection := some "E1"
        candidates := []
        constituencies := [] }
      "V1" "S1" (1/2) 10
      { voters := fun x => if x = "V1" then
          some { fullName := "A"
                 constituencyId := "C1"
                 hasVoted := false
                 votedAt := none
                 voteTxHash := none
                 failedAuthCount := 2
                 lockedOut := false
                 lockoutAt := none
                 blockchainVoterId := "0xabc" : VoterRec } else none
        submissions := []
        usedTokens := []
        attempts := []
        chainTxs := [] }
      { fullName := "A"
        constituencyId := "C1"
        hasVoted := false
        votedAt := none
        voteTxHash := none
        failedAuthCount := 2
        lockedOut := false
        lockoutAt := none
        blockchainVoterId := "0xabc" }
      (by simp) rfl rfl (by norm_num)).1
  · exact ((c5_lock_on_attempt_after_max.2
      { votingSecret := "vs-secret"
        jwtSecret := "admin-secret"
        maxAttempts := 3
        lockoutDurationMinutes := 30
        activeElection := some "E1"
        candidates := []
        constituencies := [] }
      "V1" "S1" (some (true, 1)) 20
      { voters := fun x => if x = "V1" then
          some { fullName := "A"
                 constituencyId := "C1"
                 hasVoted := false
                 votedAt := none
                 voteTxHash := none
                 failedAuthCount := 3
                 lockedOut := false
                 lockoutAt := none
                 blockchainVoterId := "0xabc" : VoterRec } else none
        submissions := []
        usedTokens := []
        attempts := []
        chainTxs := [] }
      { fullName := "A"
        constituencyId := "C1"
        hasVoted := false
        votedAt := none
        voteTxHash := none
        failedAuthCount := 3
        lockedOut := false
        lockoutAt := none
        blockchainVoterId := "0xabc" }
      (by simp) rfl rfl (by norm_num)).1)

/-- C3: when the ledger submission fails (`ledger = none`, modelling
`BlockchainError`), `cast_vote` leaves the entire system state unchanged —
the voter row (`has_voted`, `voted_at`), the submission table, the
used-token map and the audit log are exactly as before — and whenever the
same call with a ledger receipt would have succeeded, the failing call
surfaces the ledger-unavailable error. -/
theorem c3_ledger_failure_is_atomic :
    ∀ (env : Env) (tok : Token) (cand : String) (now : ℕ) (s : SysState),
      (cast_vote env tok cand none now s).1 = s ∧
      ∀ (receipt : LedgerReceipt) (txh : String) (bn : ℕ),
        (cast_vote env tok cand (some receipt) now s).2 = .success txh bn →
        (cast_vote env tok cand none now s).2 = .ledgerUnavailable := by
  intro env tok cand now s
  constructor
  · unfold cast_vote
    repeat' split
    all_goals try rfl
    all_goals (rename_i heq; exact absurd heq (by simp))
  · intro receipt txh bn h
    unfold cast_vote at h ⊢
    cases hgs : get_current_session env tok now s with
    | error e => simp [hgs] at h
    | ok sd =>
      simp only [hgs] at h ⊢
      split_ifs at h ⊢ with hrep
      cases hv : s.voters sd.voterId with
      | none => simp [hv] at h
      | some voter =>
        simp only [hv] at h ⊢
        split_ifs at h ⊢ with hvv hlo
        cases hc : env.candidates.find? fun c =>
            c.id == cand && c.electionId == sd.electionId with
        | none => simp [hc] at h
        | some cd =>
          simp only [hc] at h ⊢
          split_ifs at h ⊢ with hact hcon
          cases hk : env.constituencies.find? fun p =>
              p.1 == sd.constituencyId with
          | none => simp [hk] at h
          | some ch =>
            simp only [hk] at h ⊢

/-- Witness for `c3_ledger_failure_is_atomic`: a fully eligible concrete
cast that succeeds with a receipt, so the failing-ledger call is shown to
keep the state and return the ledger-unavailable error. -/
theorem c3_ledger_failure_is_atomic_witness :
    (cast_vote
        { votingSecret := "vs-secret"
          jwtSecret := "admin-secret"
          maxAttempts := 3
          lockoutDurationMinutes := 30
          activeElection := some "E1"
          candidates := [{ id := "CAND1"
                           electionId := "E1"
                           constituencyId := "C1"
                           onChainId := 1
                           isActive := true }]
          constituencies := [("C1", 7)] }
        { voterId := "V1"
          electionId := "E1"
          constituencyId := "C1"
          sessionId := "S1"
          iat := 0
          exp := 300
          typ := "voting_session"
          signedWith := "vs-secret" }
        "CAND1"
        (some { txHash := "abc", blockNumber := 5, gasUsed := 2 }) 10
        { voters := fun x => if x = "V1" then
            some { fullName := "A"
                   constituencyId := "C1"
                   hasVoted := false
                   votedAt := none
                   voteTxHash := none
                   failedAuthCount := 0
                   lockedOut := false
                   lockoutAt := none
                   blockchainVoterId := "0xabc" : VoterRec } else none
          submissions := []
          usedTokens := []
          attempts := []
          chainTxs := [] }).2 = .success "0xabc" 5 ∧
    (cast_vote
        { votingSecret := "vs-secret"
          jwtSecret := "admin-secret"
          maxAttempts := 3
          lockoutDurationMinutes := 30
          activeElection := some "E1"
          candidates := [{ id := "CAND1"
                           electionId := "E1"
                           constituencyId := "C1"
                           onChainId := 1
                           isActive := true }]
          constituencies := [("C1", 7)] }
        { voterId := "V1"
          electionId := "E1"
          constituencyId := "C1"
          sessionId := "S1"
          iat := 0
          exp := 300
          typ := "voting_session"
          signedWith := "vs-secret" }
        "CAND1" none 10
        { voters := fun x => if x = "V1" then
            some { fullName := "A"
                   constituencyId := "C1"
                   hasVoted := false
                   votedAt := none
                   voteTxHash := none
                   failedAuthCount := 0
                   lockedOut := false
                   lockoutAt := none
                   blockchainVoterId := "0xabc" : VoterRec } else none
          submissions := []
          usedTokens := []
          attempts := []
          chainTxs := [] }).1 =
      { voters := fun x => if x = "V1" then
          some { fullName := "A"
                 constituencyId := "C1"
                 hasVoted := false
                 votedAt := none
                 voteTxHash := none
                 failedAuthCount := 0
                 lockedOut := false
                 lockoutAt := none
                 blockchainVoterId := "0xabc" : VoterRec } else none
        submissions := []
        usedTokens := []
        attempts := []
        chainTxs := [] } ∧
    (cast_vote
        { votingSecret := "vs-secret"
          jwtSecret := "admin-secret"
          maxAttempts := 3
          lockoutDurationMinutes := 30
          activeElection := some "E1"
          candidates := [{ id := "CAND1"
                           electionId := "E1"
                           constituencyId := "C1"
                           onChainId := 1
                           isActive := true }]
          constituencies := [("C1", 7)] }
        { voterId := "V1"
          electionId := "E1"
          constituencyId := "C1"
          sessionId := "S1"
          iat := 0
          exp := 300
          typ := "voting_session"
          signedWith := "vs-secret" }
        "CAND1" none 10
        { voters := fun x => if x = "V1" then
            some { fullName := "A"
                   constituencyId := "C1"
                   hasVoted := false
                   votedAt := none
                   voteTxHash := none
                   failedAuthCount := 0
                   lockedOut := false
                   lockoutAt := none
                   blockchainVoterId := "0xabc" : VoterRec } else none
          submissions := []
          usedTokens := []
          attempts := []
          chainTxs := [] }).2 = .ledgerUnavailable := by
  refine ⟨by decide, ?_, ?_⟩
  · exact (c3_ledger_failure_is_atomic
      { votingSecret := "vs-secret"
        jwtSecret := "admin-secret"
        maxAttempts := 3
        lockoutDurationMinutes := 30
        activeElection := some "E1"
        candidates := [{ id := "CAND1"
                         electionId := "E1"
                         constituencyId := "C1"
                         onChainId := 1
                         isActive := true }]
        constituencies := [("C1", 7)] }
      { voterId := "V1"
        electionId := "E1"
        constituencyId := "C1"
        sessionId := "S1"
        iat := 0
        exp := 300
        typ := "voting_session"
        signedWith := "vs-secret" }
      "CAND1" 10
      { voters := fun x => if x = "V1" then
          some { fullName := "A"
                 constituencyId := "C1"
                 hasVoted := false
                 votedAt := none
                 voteTxHash := none
                 failedAuthCount := 0
                 lockedOut := false
                 lockoutAt := none
                 blockchainVoterId := "0xabc" : VoterRec } else none
        submissions := []
        usedTokens := []
        attempts := []
        chainTxs := [] }).1
  · exact ((c3_ledger_failure_is_atomic
      { votingSecret := "vs-secret"
        jwtSecret := "admin-secret"
        maxAttempts := 3
        lockoutDurationMinutes := 30
        activeElection := some "E1"
        candidates := [{ id := "CAND1"
                         electionId := "E1"
                         constituencyId := "C1"
                         onChainId := 1
                         isActive := true }]
        constituencies := [("C1", 7)] }
      { voterId := "V1"
        electionId := "E1"
        constituencyId := "C1"
        sessionId := "S1"
        iat := 0
        exp := 300
        typ := "voting_session"
        signedWith := "vs-secret" }
      "CAND1" 10
      { voters := fun x => if x = "V1" then
          some { fullName := "A"
                 constituencyId := "C1"
                 hasVoted := false
                 votedAt := none
                 voteTxHash := none
                 failedAuthCount := 0
                 lockedOut := false
                 lockoutAt := none
                 blockchainVoterId := "0xabc" : VoterRec } else none
        submissions := []
        usedTokens := []
        attempts := []
        chainTxs := [] }).2
      { txHash := "abc", blockNumber := 5, gasUsed := 2 } "0xabc" 5 (by decide))

lemma sameVotes_rfl (s : SysState) : sameVotes s s := ⟨rfl, fun _ => rfl⟩

lemma sameVotes_trans {s1 s2 s3 : SysState} (h1 : sameVotes s1 s2)
    (h2 : sameVotes s2 s3) : sameVotes s1 s3 :=
  ⟨h2.1.trans h1.1, fun w => (h2.2 w).trans (h1.2 w)⟩

lemma logAttempt_sameVotes (s : SysState) (vid : String) (o : AuthOutcome)
    (r : Option String) (sc : Option ℚ) : sameVotes s (logAttempt s vid o r sc) :=
  ⟨rfl, fun _ => rfl⟩

lemma updVoter_sameVotes (s : SysState) (vid : String) (f : VoterRec → VoterRec)
    (hf : ∀ v, (f v).hasVoted = v.hasVoted) : sameVotes s (updVoter s vid f) := by
  refine ⟨rfl, fun w => ?_⟩
  unfold updVoter
  dsimp only
  split_ifs with hw
  · cases s.voters w <;> simp [hf]
  · rfl

lemma lockoutGate_error_fst {env : Env} {vid : String} {voter : VoterRec}
    {now : ℕ} {s : SysState} {r : SysState × AuthResult}
    (h : lockoutGate env vid voter now s = .error r) :
    r.1 = logAttempt s vid .lockout (some "Account locked") none := by
  unfold lockoutGate at h
  split_ifs at h with h1
  cases hla : voter.lockoutAt with
  | none => simp [hla] at h
  | some t0 =>
    simp only [hla] at h
    split_ifs at h with h2
    injection h with h3
    rw [← h3]

lemma lockoutGate_ok_sameVotes {env : Env} {vid : String} {voter : VoterRec}
    {now : ℕ} {s s1 : SysState}
    (h : lockoutGate env vid voter now s = .ok s1) : sameVotes s s1 := by
  unfold lockoutGate at h
  split_ifs at h with h1
  · cases hla : voter.lockoutAt with
    | none =>
      simp only [hla] at h
      injection h with h3
      rw [← h3]
      exact updVoter_sameVotes s vid (fun v => { v with lockedOut := false, failedAuthCount := 0 }) (fun v => rfl)
    | some t0 =>
      simp only [hla] at h
      split_ifs at h with h2
      injection h with h3
      rw [← h3]
      exact updVoter_sameVotes s vid (fun v => { v with lockedOut := false, failedAuthCount := 0 }) (fun v => rfl)
  · injection h with h3
    rw [← h3]
    exact sameVotes_rfl s

lemma auth_sameVotes (env : Env) (vid sid : String) (bio : Option (Bool × ℚ))
    (now : ℕ) (s : SysState) :
    sameVotes s (authenticate_with_face env vid sid bio now s).1 := by
  unfold authenticate_with_face
  cases hv : s.voters vid with
  | none => exact logAttempt_sameVotes s vid _ _ _
  | some voter =>
    by_cases hhv : voter.hasVoted
    · simp only [if_pos hhv]
      exact logAttempt_sameVotes s vid _ _ _
    · simp only [if_neg hhv]
      cases hlg : lockoutGate env vid voter now s with
      | error r =>
        have hr := lockoutGate_error_fst hlg
        show sameVotes s r.1
        rw [hr]
        exact logAttempt_sameVotes s vid _ _ _
      | ok s1 =>
        have hs1 := lockoutGate_ok_sameVotes hlg
        by_cases hmax : env.maxAttempts ≤ voter.failedAuthCount
        · simp only [if_pos hmax]
          exact sameVotes_trans hs1 (sameVotes_trans (updVoter_sameVotes s1 vid (fun v => { v with lockedOut := true, lockoutAt := some now }) (fun v => rfl)) (logAttempt_sameVotes _ vid _ _ _))
        · simp only [if_neg hmax]
          cases bio with
          | none => exact sameVotes_trans hs1 (logAttempt_sameVotes s1 vid _ _ _)
          | some mb =>
            obtain ⟨matched, score⟩ := mb
            by_cases hm : matched = false
            · simp only [if_pos hm]
              exact sameVotes_trans hs1 (sameVotes_trans (updVoter_sameVotes s1 vid (fun v => { v with failedAuthCount := voter.failedAuthCount + 1 }) (fun v => rfl)) (logAttempt_sameVotes _ vid _ _ _))
            · simp only [if_neg hm]
              cases env.activeElection with
              | none => exact sameVotes_trans hs1 (updVoter_sameVotes s1 vid (fun v => { v with failedAuthCount := 0 }) (fun v => rfl))
              | some eid => exact sameVotes_trans hs1 (sameVotes_trans (updVoter_sameVotes s1 vid (fun v => { v with failedAuthCount := 0 }) (fun v => rfl)) (logAttempt_sameVotes _ vid _ _ _))

lemma VoteInv_of_sameVotes {s s' : SysState} (h : sameVotes s s')
    (hinv : VoteInv s) : VoteInv s' := by
  intro w
  have hsub : subsFor s' w = subsFor s w := by unfold subsFor; rw [h.1]
  have hw := h.2 w
  have hi := hinv w
  cases hs' : s'.voters w with
  | none =>
    rw [hs'] at hw
    have hnone : s.voters w = none := by
      cases hsw : s.voters w with
      | none => rfl
      | some v => rw [hsw] at hw; simp at hw
    rw [hnone] at hi
    have hi' : subsFor s w = 0 := hi
    show subsFor s' w = 0
    rw [hsub]; exact hi'
  | some v' =>
    rw [hs'] at hw
    cases hsw : s.voters w with
    | none => rw [hsw] at hw; simp at hw
    | some v =>
      rw [hsw] at hi hw
      simp only [Option.map_some'] at hw
      have hw' : v'.hasVoted = v.hasVoted := by injection hw
      have hi' : subsFor s w = if v.hasVoted then 1 else 0 := hi
      show subsFor s' w = if v'.hasVoted then 1 else 0
      rw [hsub, hw']; exact hi'

lemma get_current_session_ok_inv {env : Env} {tok : Token} {now : ℕ}
    {s : SysState} {sd : SessionData}
    (h : get_current_session env tok now s = .ok sd) :
    sd.voterId = tok.voterId ∧ sd.electionId = tok.electionId ∧
    sd.constituencyId = tok.constituencyId ∧ sd.sessionId = tok.sessionId ∧
    ∃ v, s.voters tok.voterId = some v ∧ v.hasVoted = false ∧
      v.lockedOut = false := by
  unfold get_current_session at h
  split_ifs at h with h1 h2 h3 h4
  cases hv : s.voters tok.voterId with
  | none => simp [hv] at h
  | some v =>
    simp only [hv] at h
    split_ifs at h with h5 h6
    injection h with h7
    rw [← h7]
    exact ⟨rfl, rfl, rfl, rfl, v, rfl, by simpa using h5, by simpa using h6⟩

lemma cast_vote_cases (env : Env) (tok : Token) (cand : String)
    (ledg : Option LedgerReceipt) (now : ℕ) (s : SysState) :
    ((cast_vote env tok cand ledg now s).1 = s ∧
      ∀ txh bn, (cast_vote env tok cand ledg now s).2 ≠ .success txh bn) ∨
    ∃ sd receipt voter, get_current_session env tok now s = .ok sd ∧
      ledg = some receipt ∧ s.voters sd.voterId = some voter ∧
      voter.hasVoted = false ∧
      cast_vote env tok cand ledg now s =
        ({ voters := fun x => if x = sd.voterId then (s.voters x).map (fun v =>
              { v with hasVoted := true
                       votedAt := some now
                       voteTxHash := some (withHexHead receipt.txHash) })
            else s.voters x
           submissions := { voterId := sd.voterId
                            electionId := sd.electionId
                            sessionId := sd.sessionId
                            txHash := withHexHead receipt.txHash
                            blockNumber := receipt.blockNumber } :: s.submissions
           usedTokens :=
             clean_expired_tokens ((sd.sessionId, now + 600) :: s.usedTokens) now
           attempts := s.attempts
           chainTxs := { electionId := sd.electionId
                         txHash := withHexHead receipt.txHash } :: s.chainTxs },
         .success (withHexHead receipt.txHash) receipt.blockNumber) := by
  unfold cast_vote
  repeat' split
  all_goals try exact .inl ⟨rfl, fun txh bn hcon => CastResult.noConfusion hcon⟩
  rename_i x1 sd hgs hrep x2 v hv hhv hlo x3 cd hc hact hcon x4 ch hk x5 receipt
  exact .inr ⟨sd, receipt, v, hgs, rfl, hv, by simpa using hhv, rfl⟩

lemma VoteInv_iff (s : SysState) : VoteInv s ↔
    ∀ w, (s.voters w = none → subsFor s w = 0) ∧
      ∀ v, s.voters w = some v → subsFor s w = if v.hasVoted then 1 else 0 := by
  unfold VoteInv
  constructor
  · intro h w
    have hw := h w
    constructor
    · intro hn; rw [hn] at hw; exact hw
    · intro v hv; rw [hv] at hw; exact hw
  · intro h w
    cases hv : s.voters w with
    | none => exact (h w).1 hv
    | some v => exact (h w).2 v hv

lemma filter_cons_length {α} (p : α → Bool) (a : α) (l : List α) :
    ((a :: l).filter p).length = (if p a then 1 else 0) + (l.filter p).length := by
  rw [List.filter_cons]
  by_cases h : p a <;> simp [h, Nat.add_comm]

lemma VoteInv_insert (s : SysState) (vid eid sid txh : String) (bn : ℕ)
    (f : VoterRec → VoterRec) (voter : VoterRec)
    (hv : s.voters vid = some voter) (hhv : voter.hasVoted = false)
    (hf : ∀ v, (f v).hasVoted = true) (hinv : VoteInv s)
    (uts : List (String × ℕ)) (atts : List AttemptRec)
    (ctxs : List ChainTxRec) :
    VoteInv { voters := fun x => if x = vid then (s.voters x).map f else s.voters x
              submissions := { voterId := vid
                               electionId := eid
                               sessionId := sid
                               txHash := txh
                               blockNumber := bn } :: s.submissions
              usedTokens := uts
              attempts := atts
              chainTxs := ctxs } := by
  rw [VoteInv_iff] at hinv ⊢
  intro w
  have hs : subsFor
      { voters := fun x => if x = vid then (s.voters x).map f else s.voters x
        submissions := { voterId := vid
                         electionId := eid
                         sessionId := sid
                         txHash := txh
                         blockNumber := bn } :: s.submissions
        usedTokens := uts
        attempts := atts
        chainTxs := ctxs } w
      = (if (vid == w : Bool) then 1 else 0) + subsFor s w :=
    filter_cons_length _ _ _
  constructor
  · intro hn
    have hn' : (if w = vid then (s.voters w).map f else s.voters w) = none := hn
    by_cases hw : w = vid
    · rw [if_pos hw, hw, hv] at hn'
      simp at hn'
    · rw [if_neg hw] at hn'
      have h0 : subsFor s w = 0 := (hinv w).1 hn'
      have hbe : (vid == w) = false :=
        beq_eq_false_iff_ne.mpr fun h => hw h.symm
      rw [hs, hbe, h0]
      simp
  · intro v hvv
    have hv' : (if w = vid then (s.voters w).map f else s.voters w) = some v := hvv
    by_cases hw : w = vid
    · rw [if_pos hw, hw, hv] at hv'
      simp only [Option.map_some'] at hv'
      have hfv : f voter = v := by injection hv'
      have hcount : subsFor s w = 0 := by
        have h2 := (hinv w).2 voter (by rw [hw]; exact hv)
        rw [hhv] at h2
        simpa using h2
      have hbe : (vid == w) = true := beq_iff_eq.mpr hw.symm
      rw [hs, hbe, hcount, ← hfv, hf voter]
      simp
    · rw [if_neg hw] at hv'
      have h2 := (hinv w).2 v hv'
      have hbe : (vid == w) = false :=
        beq_eq_false_iff_ne.mpr fun h => hw h.symm
      rw [hs, hbe, h2]
      simp

lemma cast_vote_VoteInv (env : Env) (tok : Token) (cand : String)
    (ledg : Option LedgerReceipt) (now : ℕ) (s : SysState)
    (hinv : VoteInv s) : VoteInv (cast_vote env tok cand ledg now s).1 := by
  rcases cast_vote_cases env tok cand ledg now s with h |
    ⟨sd, receipt, voter, hgs, hrec, hv, hhv, heq⟩
  · rw [h.1]; exact hinv
  · rw [heq]
    exact VoteInv_insert s sd.voterId sd.electionId sd.sessionId
      (withHexHead receipt.txHash) receipt.blockNumber _ voter hv hhv
      (fun v => rfl) hinv _ _ _

lemma applyOp_VoteInv (env : Env) (s : SysState) (op : Op)
    (hinv : VoteInv s) : VoteInv (applyOp env s op) := by
  cases op with
  | auth vid sid bio now =>
    exact VoteInv_of_sameVotes (auth_sameVotes env vid sid bio now s) hinv
  | cast tok cand ledg now => exact cast_vote_VoteInv env tok cand ledg now s hinv

lemma execOps_VoteInv (env : Env) (ops : List Op) :
    ∀ s, VoteInv s → VoteInv (execOps env s ops) := by
  induction ops with
  | nil => intro s h; exact h
  | cons op rest ih =>
    intro s h
    exact ih _ (applyOp_VoteInv env s op h)

lemma InitOk_VoteInv {s : SysState} (h : InitOk s) : VoteInv s := by
  rw [VoteInv_iff]
  intro w
  constructor
  · intro _
    show (s.submissions.filter fun r => r.voterId == w).length = 0
    rw [h.1]
    rfl
  · intro v hv
    rw [h.2 w v hv]
    show (s.submissions.filter fun r => r.voterId == w).length = 0
    rw [h.1]
    rfl

lemma length_filter_and_le (vid eid : String) (l : List SubmissionRec) :
    (l.filter fun r => r.voterId == vid && r.electionId == eid).length ≤
    (l.filter fun r => r.voterId == vid).length := by
  induction l with
  | nil => simp
  | cons a t ih =>
    rw [List.filter_cons, List.filter_cons]
    by_cases h1 : (a.voterId == vid) = true
    · by_cases h2 : (a.electionId == eid) = true
      · simp only [h1, h2, Bool.and_self, if_true, List.length_cons]
        omega
      · have h2' : (a.electionId == eid) = false := by simpa using h2
        simp only [h1, h2', Bool.true_and, Bool.false_eq_true, if_false,
          if_true, List.length_cons]
        omega
    · have h1' : (a.voterId == vid) = false := by simpa using h1
      simp only [h1', Bool.false_and, Bool.false_eq_true, if_false]
      exact ih

lemma VoteInv_subsForElection_le_one (s : SysState) (vid eid : String)
    (hinv : VoteInv s) : subsForElection s vid eid ≤ 1 := by
  have hle : subsForElection s vid eid ≤ subsFor s vid :=
    length_filter_and_le vid eid s.submissions
  rw [VoteInv_iff] at hinv
  cases hv : s.voters vid with
  | none =>
    have h0 := (hinv vid).1 hv
    omega
  | some v =>
    have h1 := (hinv vid).2 v hv
    by_cases hb : v.hasVoted = true
    · rw [hb] at h1
      simp only [if_true] at h1
      omega
    · simp only [Bool.not_eq_true] at hb
      rw [hb] at h1
      simp only [Bool.false_eq_true, if_false] at h1
      omega

lemma cast_vote_success_state (env : Env) (tok : Token) (cand : String)
    (ledg : Option LedgerReceipt) (now : ℕ) (s : SysState) (txh : String)
    (bn : ℕ) (h : (cast_vote env tok cand ledg now s).2 = .success txh bn) :
    (cast_vote env tok cand ledg now s).1.submissions =
      { voterId := tok.voterId
        electionId := tok.electionId
        sessionId := tok.sessionId
        txHash := txh
        blockNumber := bn } :: s.submissions ∧
    ((cast_vote env tok cand ledg now s).1.voters tok.voterId).map (·.hasVoted)
      = some true := by
  rcases cast_vote_cases env tok cand ledg now s with hl |
    ⟨sd, receipt, voter, hgs, hrec, hv, hhv, heq⟩
  · exact absurd h (hl.2 txh bn)
  · obtain ⟨hv1, hv2, hv3, hv4, -⟩ := get_current_session_ok_inv hgs
    have h' : CastResult.success (withHexHead receipt.txHash) receipt.blockNumber
        = .success txh bn := by rw [heq] at h; exact h
    injection h' with e1 e2
    constructor
    · rw [heq, ← e1, ← e2, ← hv1, ← hv2, ← hv4]
    · rw [heq, ← hv1]
      simp [hv]

lemma cast_vote_already_voted (env : Env) (tok : Token) (cand : String)
    (ledg : Option LedgerReceipt) (now : ℕ) (s : SysState) (voter : VoterRec)
    (hv : s.voters tok.voterId = some voter) (hvoted : voter.hasVoted = true) :
    (cast_vote env tok cand ledg now s).1 = s ∧
    ∀ txh bn, (cast_vote env tok cand ledg now s).2 ≠ .success txh bn := by
  rcases cast_vote_cases env tok cand ledg now s with hl |
    ⟨sd, receipt, v2, hgs, hrec, hv2, hhv2, heq⟩
  · exact hl
  · obtain ⟨hv1, -, -, -, v3, hv3, hnv, -⟩ := get_current_session_ok_inv hgs
    rw [hv] at hv3
    injection hv3 with h4
    rw [← h4, hvoted] at hnv
    exact absurd hnv (by simp)

/-- C1: starting from any enrollment-time state (no submissions, nobody
marked as having voted), every sequence of authentication and vote-cast
operations maintains the single-vote invariant: a voter's `has_voted` flag
is `true` exactly when one `VoteSubmission` row exists for them (never
zero, never more than one, hence at most one per `(voter, election)`
pair); moreover every successful `cast_vote` prepends exactly one
submission row and sets `has_voted = true` in the same committed state,
and a `cast_vote` for a voter whose `has_voted` is already `true` fails
without touching the state. -/
theorem c1_single_vote_invariant :
    (∀ (s : SysState), InitOk s → ∀ (env : Env) (ops : List Op),
      VoteInv (execOps env s ops) ∧
      ∀ vid eid, subsForElection (execOps env s ops) vid eid ≤ 1) ∧
    (∀ (env : Env) (tok : Token) (cand : String) (ledg : Option LedgerReceipt)
        (now : ℕ) (s : SysState) (txh : String) (bn : ℕ),
      (cast_vote env tok cand ledg now s).2 = .success txh bn →
      (cast_vote env tok cand ledg now s).1.submissions =
        { voterId := tok.voterId
          electionId := tok.electionId
          sessionId := tok.sessionId
          txHash := txh
          blockNumber := bn } :: s.submissions ∧
      ((cast_vote env tok cand ledg now s).1.voters tok.voterId).map
        (·.hasVoted) = some true) ∧
    (∀ (env : Env) (tok : Token) (cand : String) (ledg : Option LedgerReceipt)
        (now : ℕ) (s : SysState) (voter : VoterRec),
      s.voters tok.voterId = some voter → voter.hasVoted = true →
      (cast_vote env tok cand ledg now s).1 = s ∧
      ∀ txh bn, (cast_vote env tok cand ledg now s).2 ≠ .success txh bn) := by
  refine ⟨?_, ?_, ?_⟩
  · intro s hinit env ops
    have hv := execOps_VoteInv env ops s (InitOk_VoteInv hinit)
    exact ⟨hv, fun vid eid => VoteInv_subsForElection_le_one _ vid eid hv⟩
  · intro env tok cand ledg now s txh bn h
    exact cast_vote_success_state env tok cand ledg now s txh bn h
  · intro env tok cand ledg now s voter hv hvoted
    exact cast_vote_already_voted env tok cand ledg now s voter hv hvoted

/-- Witness for `c1_single_vote_invariant`: a concrete enrollment state,
a single successful concrete cast through `execOps`, and a concrete
already-voted voter whose cast attempt changes nothing. -/
theorem c1_single_vote_invariant_witness :
    let E : Env :=
      { votingSecret := "vs-secret"
        jwtSecret := "admin-secret"
        maxAttempts := 3
        lockoutDurationMinutes := 30
        activeElection := some "E1"
        candidates := [{ id := "CAND1"
                         electionId := "E1"
                         constituencyId := "C1"
                         onChainId := 1
                         isActive := true }]
        constituencies := [("C1", 7)] }
    let T : Token :=
      { voterId := "V1"
        electionId := "E1"
        constituencyId := "C1"
        sessionId := "S1"
        iat := 0
        exp := 300
        typ := "voting_session"
        signedWith := "vs-secret" }
    let R : LedgerReceipt := { txHash := "abc", blockNumber := 5, gasUsed := 2 }
    let S : SysState :=
      { voters := fun x => if x = "V1" then
          some { fullName := "A"
                 constituencyId := "C1"
                 hasVoted := false
                 votedAt := none
                 voteTxHash := none
                 failedAuthCount := 0
                 lockedOut := false
                 lockoutAt := none
                 blockchainVoterId := "0xabc" : VoterRec } else none
        submissions := []
        usedTokens := []
        attempts := []
        chainTxs := [] }
    let SV : SysState :=
      { voters := fun x => if x = "V1" then
          some { fullName := "A"
                 constituencyId := "C1"
                 hasVoted := true
                 votedAt := none
                 voteTxHash := none
                 failedAuthCount := 0
                 lockedOut := false
                 lockoutAt := none
                 blockchainVoterId := "0xabc" : VoterRec } else none
        submissions := []
        usedTokens := []
        attempts := []
        chainTxs := [] }
    (VoteInv (execOps E S [Op.cast T "CAND1" (some R) 10]) ∧
      ∀ vid eid, subsForElection (execOps E S [Op.cast T "CAND1" (some R) 10])
        vid eid ≤ 1) ∧
    ((cast_vote E T "CAND1" (some R) 10 S).1.submissions =
      [{ voterId := "V1"
         electionId := "E1"
         sessionId := "S1"
         txHash := "0xabc"
         blockNumber := 5 }] ∧
      ((cast_vote E T "CAND1" (some R) 10 S).1.voters "V1").map (·.hasVoted)
        = some true) ∧
    ((cast_vote E T "CAND1" (some R) 10 SV).1 = SV ∧
      ∀ txh bn, (cast_vote E T "CAND1" (some R) 10 SV).2 ≠ .success txh bn) := by
  intro E T R S SV
  refine ⟨?_, ?_, ?_⟩
  · exact c1_single_vote_invariant.1 S
      ⟨rfl, fun vid v h => by
        have h' : (if vid = "V1" then
            some { fullName := "A", constituencyId := "C1", hasVoted := false, votedAt := none, voteTxHash := none, failedAuthCount := 0, lockedOut := false, lockoutAt := none, blockchainVoterId := "0xabc" } else none) = some v := h
        split_ifs at h' with hvv
        injection h' with h2
        rw [← h2]⟩
      E [Op.cast T "CAND1" (some R) 10]
  · exact c1_single_vote_invariant.2.1 E T "CAND1" (some R) 10 S "0xabc" 5
      (by decide)
  · exact c1_single_vote_invariant.2.2 E T "CAND1" (some R) 10 SV
      { fullName := "A", constituencyId := "C1", hasVoted := true, votedAt := none, voteTxHash := none, failedAuthCount := 0, lockedOut := false, lockoutAt := none, blockchainVoterId := "0xabc" }
      rfl rfl

lemma lockoutGate_ok_usedTokens {env : Env} {vid : String} {voter : VoterRec}
    {now : ℕ} {s s1 : SysState}
    (h : lockoutGate env vid voter now s = .ok s1) :
    s1.usedTokens = s.usedTokens := by
  unfold lockoutGate at h
  split_ifs at h with h1
  · cases hla : voter.lockoutAt with
    | none =>
      simp only [hla] at h
      injection h with h3
      rw [← h3]
      rfl
    | some t0 =>
      simp only [hla] at h
      split_ifs at h with h2
      injection h with h3
      rw [← h3]
      rfl
  · injection h with h3
    rw [← h3]

lemma auth_usedTokens (env : Env) (vid sid : String) (bio : Option (Bool × ℚ))
    (now : ℕ) (s : SysState) :
    (authenticate_with_face env vid sid bio now s).1.usedTokens
      = s.usedTokens := by
  unfold authenticate_with_face
  cases hv : s.voters vid with
  | none => rfl
  | some voter =>
    by_cases hhv : voter.hasVoted
    · simp only [if_pos hhv]
      rfl
    · simp only [if_neg hhv]
      cases hlg : lockoutGate env vid voter now s with
      | error r =>
        have hr := lockoutGate_error_fst hlg
        show r.1.usedTokens = s.usedTokens
        rw [hr]
        rfl
      | ok s1 =>
        have hs1 := lockoutGate_ok_usedTokens hlg
        by_cases hmax : env.maxAttempts ≤ voter.failedAuthCount
        · simp only [if_pos hmax]
          exact hs1
        · simp only [if_neg hmax]
          cases bio with
          | none => exact hs1
          | some mb =>
            obtain ⟨matched, score⟩ := mb
            by_cases hm : matched = false
            · simp only [if_pos hm]
              exact hs1
            · simp only [if_neg hm]
              cases env.activeElection with
              | none => exact hs1
              | some eid => exact hs1

lemma Evolves_le {env : Env} {s : SysState} {t1 t2 : ℕ} {s' : SysState}
    (h : Evolves env s t1 t2 s') : t1 ≤ t2 := by
  induction h with
  | nil s h => exact h
  | step s op h1 hrest ih => exact le_trans h1 ih

lemma applyOp_usedTokens_mono (env : Env) (s : SysState) (op : Op)
    (sid : String) (texp : ℕ) (hmem : (sid, texp) ∈ s.usedTokens)
    (hexp : op.time ≤ texp) : (sid, texp) ∈ (applyOp env s op).usedTokens := by
  cases op with
  | auth vid sid2 bio now =>
    show (sid, texp) ∈ (authenticate_with_face env vid sid2 bio now s).1.usedTokens
    rw [auth_usedTokens]
    exact hmem
  | cast tok cand ledg now =>
    show (sid, texp) ∈ (cast_vote env tok cand ledg now s).1.usedTokens
    rcases cast_vote_cases env tok cand ledg now s with h |
      ⟨sd, receipt, voter, hgs, hrec, hv, hhv, heq⟩
    · rw [h.1]; exact hmem
    · rw [heq]
      show (sid, texp) ∈
        clean_expired_tokens ((sd.sessionId, now + 600) :: s.usedTokens) now
      unfold clean_expired_tokens
      rw [List.mem_filter]
      refine ⟨List.mem_cons_of_mem _ hmem, ?_⟩
      have hle : now ≤ texp := hexp
      simp only [decide_eq_true_eq]
      omega

lemma usedTokens_mono (env : Env) {s : SysState} {t1 t2 : ℕ} {s' : SysState}
    (hev : Evolves env s t1 t2 s') (sid : String) (texp : ℕ)
    (hmem : (sid, texp) ∈ s.usedTokens) (hexp : t2 ≤ texp) :
    (sid, texp) ∈ s'.usedTokens := by
  induction hev with
  | nil s h => exact hmem
  | step s op h1 hrest ih =>
    exact ih (applyOp_usedTokens_mono env s op sid texp hmem
      (le_trans (Evolves_le hrest) hexp)) hexp

lemma cast_vote_sessionError {env : Env} {tok : Token} {cand : String}
    {ledg : Option LedgerReceipt} {now : ℕ} {s : SysState} {e : SessionError}
    (hgs : get_current_session env tok now s = .error e) :
    cast_vote env tok cand ledg now s = (s, .sessionError e) := by
  unfold cast_vote
  simp only [hgs]

lemma cast_vote_replay {env : Env} {tok : Token} {cand : String}
    {ledg : Option LedgerReceipt} {now : ℕ} {s : SysState} {sd : SessionData}
    (hgs : get_current_session env tok now s = .ok sd)
    (hmem : ∃ texp, (sd.sessionId, texp) ∈ s.usedTokens) :
    cast_vote env tok cand ledg now s = (s, .replay) := by
  unfold cast_vote
  simp only [hgs]
  have hany : (s.usedTokens.any fun p => p.1 = sd.sessionId) = true := by
    obtain ⟨texp, hm⟩ := hmem
    exact List.any_eq_true.mpr ⟨(sd.sessionId, texp), hm, by simp⟩
  simp [hany]

lemma get_current_session_expired {env : Env} {tok : Token} {now : ℕ}
    {s : SysState} (h : tok.exp < now) :
    get_current_session env tok now s = .error .invalidSession := by
  unfold get_current_session
  by_cases h1 : tok.signedWith ≠ env.votingSecret
  · rw [if_pos h1]
  · rw [if_neg h1, if_pos h]

lemma get_current_session_ok_checks {env : Env} {tok : Token} {now : ℕ}
    {s : SysState} {sd : SessionData}
    (h : get_current_session env tok now s = .ok sd) :
    tok.signedWith = env.votingSecret ∧ tok.typ = "voting_session" ∧
    ¬(tok.voterId = "" ∨ tok.electionId = "" ∨ tok.constituencyId = ""
      ∨ tok.sessionId = "") := by
  unfold get_current_session at h
  split_ifs at h with h1 h2 h3 h4
  exact ⟨not_ne_iff.mp h1, not_ne_iff.mp h3, h4⟩

lemma applyOp_hasVoted_mono (env : Env) (s : SysState) (op : Op) (vid : String)
    (h : (s.voters vid).map (·.hasVoted) = some true) :
    ((applyOp env s op).voters vid).map (·.hasVoted) = some true := by
  cases op with
  | auth vid2 sid bio now =>
    show ((authenticate_with_face env vid2 sid bio now s).1.voters vid).map
      (·.hasVoted) = some true
    rw [(auth_sameVotes env vid2 sid bio now s).2 vid]
    exact h
  | cast tok cand ledg now =>
    show ((cast_vote env tok cand ledg now s).1.voters vid).map (·.hasVoted)
      = some true
    rcases cast_vote_cases env tok cand ledg now s with hl |
      ⟨sd, receipt, voter, hgs, hrec, hv, hhv, heq⟩
    · rw [hl.1]; exact h
    · rw [heq]
      show ((if vid = sd.voterId then (s.voters vid).map _ else s.voters vid).map
        (·.hasVoted)) = some true
      by_cases hw : vid = sd.voterId
      · rw [if_pos hw, hw, hv]
        rfl
      · rw [if_neg hw]
        exact h

lemma Evolves_hasVoted_mono (env : Env) {s : SysState} {t1 t2 : ℕ}
    {s' : SysState} (hev : Evolves env s t1 t2 s') (vid : String)
    (h : (s.voters vid).map (·.hasVoted) = some true) :
    (s'.voters vid).map (·.hasVoted) = some true := by
  induction hev with
  | nil s h2 => exact h
  | step s op h1 hrest ih => exact ih (applyOp_hasVoted_mono env s op vid h)

/-- C2 counterexample: voter `V1` casts successfully at time 10 and the
very same token is replayed immediately, well inside its 5-minute
validity window.  The replay is rejected — but by the session-validation
dependency with the already-voted error (`get_current_session` re-resolves
the voter and sees `has_voted = true` before the handler's `used_tokens`
check ever runs), not as a replayed session: the result is
`sessionError .alreadyVoted` and provably not `.replay`, refuting the
claim's "rejected as a replayed session". -/
theorem c2_same_token_replay_already_voted :
    let E : Env :=
      { votingSecret := "vs-secret"
        jwtSecret := "admin-secret"
        maxAttempts := 3
        lockoutDurationMinutes := 30
        activeElection := some "E1"
        candidates := [{ id := "CAND1"
                         electionId := "E1"
                         constituencyId := "C1"
                         onChainId := 1
                         isActive := true }]
        constituencies := [("C1", 7)] }
    let T : Token :=
      { voterId := "V1"
        electionId := "E1"
        constituencyId := "C1"
        sessionId := "S1"
        iat := 0
        exp := 300
        typ := "voting_session"
        signedWith := "vs-secret" }
    let R : LedgerReceipt := { txHash := "abc", blockNumber := 5, gasUsed := 2 }
    let S : SysState :=
      { voters := fun x => if x = "V1" then
          some { fullName := "A"
                 constituencyId := "C1"
                 hasVoted := false
                 votedAt := none
                 voteTxHash := none
                 failedAuthCount := 0
                 lockedOut := false
                 lockoutAt := none
                 blockchainVoterId := "0xabc" : VoterRec } else none
        submissions := []
        usedTokens := []
        attempts := []
        chainTxs := [] }
    (cast_vote E T "CAND1" (some R) 10 S).2 = .success "0xabc" 5 ∧
    (cast_vote E T "CAND1" (some R) 10
        (cast_vote E T "CAND1" (some R) 10 S).1).2
      = .sessionError .alreadyVoted ∧
    (cast_vote E T "CAND1" (some R) 10
        (cast_vote E T "CAND1" (some R) 10 S).1).2 ≠ .replay := by
  intro E T R S
  refine ⟨by decide, by decide, by decide⟩

/-- C2 (amended): once a `cast_vote` with a session id has succeeded (at
time `ts`, the token inside its 5-minute validity window,
`exp ≤ ts + 300`), no later `cast_vote` presenting a token for that
session id — with expiry no later than the original's — is ever accepted
again, along any evolution of the system: the attempt always ends in the
replay rejection or a session-validation error, never in success.  The
rejection class, however, is not the replay error for the canonical
replay: re-presenting the very same token while it is still unexpired is
rejected by the session-validation dependency with the already-voted
error (the voter's `has_voted` is now `true` and is never unset), because
`get_current_session` runs before the handler's `used_tokens` check; the
dedicated replay rejection fires only when session validation still
passes. -/
theorem c2_session_single_use :
    ∀ (env : Env) (tok : Token) (cand : String) (receipt : LedgerReceipt)
      (ts : ℕ) (s : SysState) (txh : String) (bn : ℕ),
      (cast_vote env tok cand (some receipt) ts s).2 = .success txh bn →
      tok.exp ≤ ts + 300 →
      ∀ (t' : ℕ) (s2 : SysState),
        Evolves env (cast_vote env tok cand (some receipt) ts s).1 ts t' s2 →
        (∀ (tok' : Token) (cand' : String) (ledg' : Option LedgerReceipt),
          tok'.sessionId = tok.sessionId → tok'.exp ≤ tok.exp →
          ((cast_vote env tok' cand' ledg' t' s2).2 = .replay ∨
            ∃ e, (cast_vote env tok' cand' ledg' t' s2).2 = .sessionError e) ∧
          ∀ txh' bn',
            (cast_vote env tok' cand' ledg' t' s2).2 ≠ .success txh' bn') ∧
        (∀ (cand' : String) (ledg' : Option LedgerReceipt), t' ≤ tok.exp →
          (cast_vote env tok cand' ledg' t' s2).2
            = .sessionError .alreadyVoted ∧
          (cast_vote env tok cand' ledg' t' s2).2 ≠ .replay) := by
  intro env tok cand receipt ts s txh bn hsucc htokexp t' s2 hev
  rcases cast_vote_cases env tok cand (some receipt) ts s with hl |
    ⟨sd, receipt2, voter, hgs, hrec, hv, hhv, heq⟩
  · exact absurd hsucc (hl.2 txh bn)
  obtain ⟨hs1, -, -, hv4, -⟩ := get_current_session_ok_inv hgs
  obtain ⟨hsig, htyp, hclaims⟩ := get_current_session_ok_checks hgs
  constructor
  · intro tok' cand' ledg' hsid hexp'
    have hrej : (cast_vote env tok' cand' ledg' t' s2).2 = .replay ∨
        ∃ e, (cast_vote env tok' cand' ledg' t' s2).2 = .sessionError e := by
      by_cases hwin : t' ≤ ts + 600
      · -- within the single-use window: the used-token entry survives
        have hmem0 : (tok.sessionId, ts + 600) ∈
            (cast_vote env tok cand (some receipt) ts s).1.usedTokens := by
          rw [heq]
          show (tok.sessionId, ts + 600) ∈
            clean_expired_tokens ((sd.sessionId, ts + 600) :: s.usedTokens) ts
          unfold clean_expired_tokens
          rw [List.mem_filter]
          refine ⟨?_, by simp⟩
          rw [hv4]
          exact List.mem_cons_self _ _
        have hmem : (tok.sessionId, ts + 600) ∈ s2.usedTokens :=
          usedTokens_mono env hev tok.sessionId (ts + 600) hmem0 hwin
        cases hgs' : get_current_session env tok' t' s2 with
        | error e =>
          right
          exact ⟨e, by rw [cast_vote_sessionError hgs']⟩
        | ok sd' =>
          left
          obtain ⟨-, -, -, hv4', -⟩ := get_current_session_ok_inv hgs'
          rw [cast_vote_replay hgs' ⟨ts + 600, by rw [hv4', hsid]; exact hmem⟩]
      · -- after the window the token has expired long ago
        have hexpired : tok'.exp < t' := by omega
        right
        exact ⟨.invalidSession,
          by rw [cast_vote_sessionError (get_current_session_expired hexpired)]⟩
    refine ⟨hrej, fun txh' bn' hcon => ?_⟩
    rcases hrej with h | ⟨e, h⟩
    · rw [hcon] at h; exact CastResult.noConfusion h
    · rw [hcon] at h; exact CastResult.noConfusion h
  · intro cand' ledg' hwin
    -- the voter's has_voted flag is true right after the cast and persists
    have hvt1 : ((cast_vote env tok cand (some receipt) ts s).1.voters
        tok.voterId).map (·.hasVoted) = some true := by
      rw [heq]
      show ((if tok.voterId = sd.voterId then (s.voters tok.voterId).map _
        else s.voters tok.voterId).map (·.hasVoted)) = some true
      rw [if_pos hs1.symm]
      rw [hs1] at hv
      rw [hv]
      rfl
    have hvt2 : (s2.voters tok.voterId).map (·.hasVoted) = some true :=
      Evolves_hasVoted_mono env hev tok.voterId hvt1
    obtain ⟨v2, hv2, hv2t⟩ : ∃ v2, s2.voters tok.voterId = some v2 ∧
        v2.hasVoted = true := by
      cases hx : s2.voters tok.voterId with
      | none => rw [hx] at hvt2; simp at hvt2
      | some v2 =>
        rw [hx] at hvt2
        simp only [Option.map_some'] at hvt2
        exact ⟨v2, rfl, by injection hvt2⟩
    have hgs' : get_current_session env tok t' s2 = .error .alreadyVoted := by
      unfold get_current_session
      rw [if_neg (not_ne_iff.mpr hsig)]
      rw [if_neg (by omega : ¬ tok.exp < t')]
      rw [if_neg (not_ne_iff.mpr htyp)]
      rw [if_neg hclaims]
      simp only [hv2]
      rw [if_pos hv2t]
    rw [cast_vote_sessionError hgs']
    exact ⟨rfl, fun hcon => CastResult.noConfusion hcon⟩

/-- Witness for `c2_session_single_use`: the concrete successful cast of
voter `V1` followed by an immediate replay of the same token; both the
generic rejection and the already-voted rejection class are exercised. -/
theorem c2_session_single_use_witness :
    let E : Env :=
      { votingSecret := "vs-secret"
        jwtSecret := "admin-secret"
        maxAttempts := 3
        lockoutDurationMinutes := 30
        activeElection := some "E1"
        candidates := [{ id := "CAND1"
                         electionId := "E1"
                         constituencyId := "C1"
                         onChainId := 1
                         isActive := true }]
        constituencies := [("C1", 7)] }
    let T : Token :=
      { voterId := "V1"
        electionId := "E1"
        constituencyId := "C1"
        sessionId := "S1"
        iat := 0
        exp := 300
        typ := "voting_session"
        signedWith := "vs-secret" }
    let R : LedgerReceipt := { txHash := "abc", blockNumber := 5, gasUsed := 2 }
    let S : SysState :=
      { voters := fun x => if x = "V1" then
          some { fullName := "A"
                 constituencyId := "C1"
                 hasVoted := false
                 votedAt := none
                 voteTxHash := none
                 failedAuthCount := 0
                 lockedOut := false
                 lockoutAt := none
                 blockchainVoterId := "0xabc" : VoterRec } else none
        submissions := []
        usedTokens := []
        attempts := []
        chainTxs := [] }
    (((cast_vote E T "CAND1" (some R) 10
        (cast_vote E T "CAND1" (some R) 10 S).1).2 = .replay ∨
      ∃ e, (cast_vote E T "CAND1" (some R) 10
        (cast_vote E T "CAND1" (some R) 10 S).1).2 = .sessionError e) ∧
      ∀ txh' bn', (cast_vote E T "CAND1" (some R) 10
        (cast_vote E T "CAND1" (some R) 10 S).1).2 ≠ .success txh' bn') ∧
    ((cast_vote E T "CAND1" (some R) 10
        (cast_vote E T "CAND1" (some R) 10 S).1).2
      = .sessionError .alreadyVoted ∧
      (cast_vote E T "CAND1" (some R) 10
        (cast_vote E T "CAND1" (some R) 10 S).1).2 ≠ .replay) := by
  intro E T R S
  have h := c2_session_single_use E T "CAND1" R 10 S "0xabc" 5 (by decide)
    (by decide) 10 (cast_vote E T "CAND1" (some R) 10 S).1
    (Evolves.nil _ (Nat.le_refl 10))
  exact ⟨h.1 T "CAND1" (some R) rfl (Nat.le_refl _),
    h.2 "CAND1" (some R) (by decide)⟩

end Voting
